import Mathlib

/-!
# go-pubsub: the message lifecycle of a subscription

A shallow embedding of `models/subscription.go`, `models/datastore_message.go`
and the publish handler of `server/topic_server.go`: visibility of a
`MessageStatus` row, the size-bounded readable scan and its sort, delivery,
acknowledgement (single and batched), the ack-deadline conversion, the
registration of a Message with a subscription, and the response and counter
of a publish request.  Mutating operations thread the stores explicitly and
return the Go `error` as an `Option Error` (`none` is `nil`).
-/

set_option autoImplicit false

namespace PubSub

/-! ## Time -/

/-! A `time.Duration` is a signed 64-bit count of nanoseconds and a
`time.Time` is held as a count of nanoseconds from the Unix epoch; both are
integers here, with the `int64` wrap and the saturation of `Time.Sub` made
explicit where the source computes with them. -/

/-- Smallest `int64`. -/
def minInt64 : Int := -9223372036854775808

/-- Largest `int64`. -/
def maxInt64 : Int := 9223372036854775807

/-- Two's-complement wrap of an integer into the `int64` range. -/
def wrapInt64 (x : Int) : Int := (x + 9223372036854775808) % 18446744073709551616 - 9223372036854775808

/-- Go `time.Second`. -/
def Second : Int := 1000000000

/-- Go `Time.Sub`: the difference `t - u`, saturated at the largest and
smallest `Duration`. -/
def Time.Sub (t u : Int) : Int :=
  if t - u > maxInt64 then maxInt64
  else if t - u < minInt64 then minInt64
  else t - u

/-- The zero `time.Time` (January 1, year 1, 00:00 UTC) in Unix nanoseconds. -/
def zeroTime : Int := -62135596800000000000

/-! ## Errors -/

/-- Error values of package `models` that the embedded code returns;
`Wrap` is `errors.Wrap(err, msg)`. -/
inductive Error where
  | ErrEmptyMessage
  | ErrNotFoundEntry
  | ErrAlreadyReadMessage
  | ErrNotMatchTypeMessage
  | Wrap (err : Error) (msg : String)
  deriving DecidableEq, Repr

open Error

/-! ## Entities -/

/-- Modelled from the spec: `ackState ∈ {Wait, Deliver, Ack}`. The type
`messageState` and its three constants are declared outside the listed
sources; it is an integer type, so values other than the three constants
exist. -/
abbrev messageState := Int

/-- Modelled from the spec: state Wait, initial on fan-out. -/
def stateWait : messageState := 0

/-- Modelled from the spec: state Deliver. -/
def stateDeliver : messageState := 1

/-- Modelled from the spec: state Ack, terminal. -/
def stateAck : messageState := 2

/-- The struct `MessageStatus` of `subscription.go`. -/
structure MessageStatus where
  MessageID : String
  SubscriptionID : String
  AckID : String
  AckDeadline : Int
  AckState : messageState
  DeliveredAt : Int
  deriving DecidableEq, Repr

/-- Modelled from the spec: the entity Message, whose struct is declared
outside the listed sources: messageID, payload, attributes, publishedAt and
`remainingSubscriptions`, the set of subscription names that have not yet
acked (field `Subscriptions`, read through `Dump`). -/
structure Message where
  ID : String
  Data : List Nat
  Attributes : List (String × String)
  Subscriptions : List String
  PublishedAt : Int
  deriving DecidableEq, Repr

/-- The struct `PullMessage`: a Message and AckID pair. -/
structure PullMessage where
  AckID : String
  Message : Message
  deriving DecidableEq, Repr

/-- The function `newMessageStatus`. -/
def newMessageStatus (msgID subID : String) (deadline : Int) : MessageStatus :=
  { MessageID := msgID
    SubscriptionID := subID
    AckID := ""
    AckDeadline := deadline
    AckState := stateWait
    DeliveredAt := zeroTime }

/-- The method `MessageStatus.Readable`; `now` is the value of `time.Now()`.
The `switch` is tried case by case in source order. -/
def MessageStatus.Readable (m : MessageStatus) (now : Int) : Bool :=
  if m.AckState = stateAck then false
  else if m.AckState = stateDeliver then decide (Time.Sub now m.DeliveredAt > m.AckDeadline)
  else if m.AckState = stateWait then true
  else false

/-- The function `convertAckDeadlineSeconds`: the clamp at zero, then the
`int64` product `time.Duration(timeout) * time.Second`, which wraps. -/
def convertAckDeadlineSeconds (timeout : Int) : Int :=
  let timeout := if timeout < 0 then 0 else timeout
  wrapInt64 (timeout * Second)

/-! ## The Message repository -/

/-- Modelled from the spec: the Store behind `DatastoreMessage`, a mapping
from key to value with Get, Set and Delete (`LoadDatastore` is outside the
listed sources). It is held as the list of stored Messages in scan order, each
under its ID; the codec round-trips, so values are kept decoded. -/
structure DatastoreMessage where
  store : List Message
  deriving DecidableEq, Repr

/-- The method `DatastoreMessage.Get`: a missing value is `ErrNotFoundEntry`. -/
def DatastoreMessage.Get (d : DatastoreMessage) (key : String) : Except Error Message :=
  match d.store.find? (fun m => m.ID == key) with
  | none => .error ErrNotFoundEntry
  | some m => .ok m

/-- The method `DatastoreMessage.Set`: store `m` under `m.ID`, replacing the
value already under that key. -/
def DatastoreMessage.Set (d : DatastoreMessage) (m : Message) : Option Error × DatastoreMessage :=
  if d.store.any (fun x => x.ID == m.ID) then
    (none, { d with store := d.store.map (fun x => if x.ID == m.ID then m else x) })
  else
    (none, { d with store := d.store ++ [m] })

/-- The method `DatastoreMessage.Delete`; Modelled from the spec for the
Store underneath: `Delete(key) → ok | NotFound`. -/
def DatastoreMessage.Delete (d : DatastoreMessage) (key : String) : Option Error × DatastoreMessage :=
  if d.store.any (fun x => x.ID == key) then
    (none, { d with store := d.store.filter (fun x => x.ID != key) })
  else
    (some ErrNotFoundEntry, d)

/-- Modelled from the spec: `Message.AckSubscription`, declared outside the
listed sources: remove the subscription name from
`Message.remainingSubscriptions`. -/
def Message.AckSubscription (m : Message) (subID : String) : Message :=
  { m with Subscriptions := m.Subscriptions.filter (fun n => n != subID) }

/-- Modelled from the spec: `Message.Save`, declared outside the listed
sources: persist the Message in the Message repository. -/
def Message.Save (m : Message) (globalMessage : DatastoreMessage) : Option Error × DatastoreMessage :=
  globalMessage.Set m

/-- Modelled from the spec: `Message.Delete`, declared outside the listed
sources: delete the Message from the Message repository. -/
def Message.Delete (m : Message) (globalMessage : DatastoreMessage) : Option Error × DatastoreMessage :=
  globalMessage.Delete m.ID

/-- Modelled from the spec: `sort.Sort(ByMessageID(msgs))`, where
`ByMessageID` is declared outside the listed sources: ascending by messageID,
compared lexicographically as strings. -/
def sortByMessageID (msgs : List Message) : List Message :=
  msgs.insertionSort (fun a b => a.ID.data ≤ b.ID.data)

/-! ## The AckStatus repository -/

/-- Modelled from the spec: `DatastoreMessageStatus`, declared outside the
listed sources: the MessageStatus rows of one subscription, keyed by
messageID, held as a list in the order a scan visits them. -/
structure DatastoreMessageStatus where
  rows : List MessageStatus
  deriving DecidableEq, Repr

/-- Modelled from the spec: the number of stored rows. -/
def DatastoreMessageStatus.Size (d : DatastoreMessageStatus) : Int :=
  d.rows.length

/-- Modelled from the spec: lookup of the row stored under a messageID;
a missing row is `NotFoundEntry`. -/
def DatastoreMessageStatus.FindByMessageID (d : DatastoreMessageStatus) (id : String) :
    Except Error MessageStatus :=
  match d.rows.find? (fun r => r.MessageID == id) with
  | none => .error ErrNotFoundEntry
  | some r => .ok r

/-- Modelled from the spec: secondary lookup by ack ID: the first row of the
scan whose ackID is the given one; a missing row is `NotFoundEntry`. -/
def DatastoreMessageStatus.FindByAckID (d : DatastoreMessageStatus) (id : String) :
    Except Error MessageStatus :=
  match d.rows.find? (fun r => r.AckID == id) with
  | none => .error ErrNotFoundEntry
  | some r => .ok r

/-- Modelled from the spec: persist a row under its messageID, replacing the
row already under that key. -/
def DatastoreMessageStatus.Set (d : DatastoreMessageStatus) (ms : MessageStatus) :
    Option Error × DatastoreMessageStatus :=
  if d.rows.any (fun r => r.MessageID == ms.MessageID) then
    (none, { d with rows := d.rows.map (fun r => if r.MessageID == ms.MessageID then ms else r) })
  else
    (none, { d with rows := d.rows ++ [ms] })

/-- Modelled from the spec: delete the row under a messageID:
`Delete(key) → ok | NotFound`. -/
def DatastoreMessageStatus.Delete (d : DatastoreMessageStatus) (key : String) :
    Option Error × DatastoreMessageStatus :=
  if d.rows.any (fun r => r.MessageID == key) then
    (none, { d with rows := d.rows.filter (fun r => r.MessageID != key) })
  else
    (some ErrNotFoundEntry, d)

/-- The scan of `CollectByReadableMessage` over the rows still to visit, with
`n` messages still wanted. -/
def collectReadable (globalMessage : DatastoreMessage) (now : Int) :
    List MessageStatus → Nat → Except Error (List Message)
  | [], _ => .ok []
  | _ :: _, 0 => .ok []
  | r :: rest, n + 1 =>
    if r.Readable now then
      match globalMessage.Get r.MessageID with
      | .error err => .error err
      | .ok m =>
        match collectReadable globalMessage now rest n with
        | .error err => .error err
        | .ok msgs => .ok (m :: msgs)
    else collectReadable globalMessage now rest (n + 1)

/-- Modelled from the spec: `CollectByReadableMessage`, declared outside the
listed sources: the size-scan for readable messages. The rows are visited in
scan order; each readable row contributes its Message, loaded from the Message
repository (a failed load is surfaced), until `size` messages are collected. -/
def DatastoreMessageStatus.CollectByReadableMessage (d : DatastoreMessageStatus)
    (globalMessage : DatastoreMessage) (now : Int) (size : Int) : Except Error (List Message) :=
  collectReadable globalMessage now d.rows size.toNat

/-- The struct `MessageStatusStore`. -/
structure MessageStatusStore where
  store : DatastoreMessageStatus
  deriving DecidableEq, Repr

/-- The struct `Subscription`; the push configuration is left out. -/
structure Subscription where
  Name : String
  TopicID : String
  DefaultAckDeadline : Int
  MessageStatus : MessageStatusStore
  deriving DecidableEq, Repr

/-- The state an operation of a subscription works on: the process-wide
Message repository `globalMessage` and the receiver `sub`. -/
structure World where
  globalMessage : DatastoreMessage
  sub : Subscription
  deriving DecidableEq, Repr

/-- The rows of the subscription, in scan order. -/
def World.rows (w : World) : List MessageStatus :=
  w.sub.MessageStatus.store.rows

/-- The state with the rows of the subscription replaced. -/
def World.setStatus (w : World) (s : MessageStatusStore) : World :=
  { w with sub := { w.sub with MessageStatus := s } }

/-- The method `MessageStatusStore.SaveStatus`. -/
def MessageStatusStore.SaveStatus (s : MessageStatusStore) (ms : MessageStatus) :
    Option Error × MessageStatusStore :=
  let r := s.store.Set ms
  (r.1, { s with store := r.2 })

/-- The method `MessageStatusStore.FindByMessageID`. -/
def MessageStatusStore.FindByMessageID (s : MessageStatusStore) (id : String) :
    Except Error MessageStatus :=
  s.store.FindByMessageID id

/-- The method `MessageStatusStore.FindByAckID`. -/
def MessageStatusStore.FindByAckID (s : MessageStatusStore) (id : String) :
    Except Error MessageStatus :=
  s.store.FindByAckID id

/-- The method `MessageStatusStore.GetRangeMessage`. -/
def MessageStatusStore.GetRangeMessage (s : MessageStatusStore) (globalMessage : DatastoreMessage)
    (now : Int) (size : Int) : Except Error (List Message) :=
  let storeLength := s.store.Size
  if storeLength = 0 then .error ErrEmptyMessage
  else
    let size := if storeLength < size then storeLength else size
    match s.store.CollectByReadableMessage globalMessage now size with
    | .error err => .error (Wrap err "failed to get range messages")
    | .ok msgs =>
      if msgs.length = 0 then .error ErrEmptyMessage
      else .ok (sortByMessageID msgs)

/-- The method `MessageStatusStore.Deliver`; `now` is the value of
`time.Now()`. -/
def MessageStatusStore.Deliver (s : MessageStatusStore) (now : Int) (msgID ackID : String) :
    Option Error × MessageStatusStore :=
  match s.store.FindByMessageID msgID with
  | .error _ => (some ErrNotFoundEntry, s)
  | .ok ms =>
    if ms.AckState = stateAck then (some ErrAlreadyReadMessage, s)
    else
      s.SaveStatus { ms with AckState := stateDeliver, AckID := ackID, DeliveredAt := now }

/-- The method `MessageStatusStore.Ack`, on the receiver `w.sub.MessageStatus`
and the global `w.globalMessage`. The result of `s.store.Delete(m.ID)` is
dropped, as in the source. -/
def MessageStatusStore.Ack (w : World) (ackID : String) : Option Error × World :=
  match w.sub.MessageStatus.store.FindByAckID ackID with
  | .error _ => (some ErrNotFoundEntry, w)
  | .ok ms =>
    match w.globalMessage.Get ms.MessageID with
    | .error _ => (some ErrNotFoundEntry, w)
    | .ok m =>
      let m := m.AckSubscription ms.SubscriptionID
      match m.Save w.globalMessage with
      | (some err, g) => (some err, { w with globalMessage := g })
      | (none, g) =>
        let w := { w with globalMessage := g }
        let w := w.setStatus { w.sub.MessageStatus with store := (w.sub.MessageStatus.store.Delete m.ID).2 }
        if m.Subscriptions.length = 0 then
          match m.Delete w.globalMessage with
          | (some err, g) => (some err, { w with globalMessage := g })
          | (none, g) => (none, { w with globalMessage := g })
        else (none, w)

/-- The loop of `Subscription.Pull` over the messages still to deliver;
`makeAckID i` is the ackID minted at the `i`-th iteration and `acc` is
`pullMsgs`. -/
def pullLoop (now : Int) (makeAckID : Nat → String) :
    MessageStatusStore → List Message → Nat → List PullMessage →
      Except Error (List PullMessage) × MessageStatusStore
  | s, [], _, acc => (.ok acc, s)
  | s, m :: rest, i, acc =>
    let ackID := makeAckID i
    match s.Deliver now m.ID ackID with
    | (some err, s) => (.error err, s)
    | (none, s) => pullLoop now makeAckID s rest (i + 1) (acc ++ [{ AckID := ackID, Message := m }])

/-- The method `Subscription.Pull`; `now` is the value of `time.Now()` and
`makeAckID i` the `i`-th ackID that `makeAckID()` mints during the call. -/
def Subscription.Pull (w : World) (now : Int) (makeAckID : Nat → String) (size : Int) :
    Except Error (List PullMessage) × World :=
  match w.sub.MessageStatus.GetRangeMessage w.globalMessage now size with
  | .error err => (.error err, w)
  | .ok msgs =>
    let r := pullLoop now makeAckID w.sub.MessageStatus msgs 0 []
    (r.1, w.setStatus r.2)

/-- The method `Subscription.Ack` on the ackIDs `ids`: the first error ends
the loop. -/
def Subscription.Ack (w : World) : List String → Option Error × World
  | [] => (none, w)
  | id :: ids =>
    match MessageStatusStore.Ack w id with
    | (some err, w) => (some err, w)
    | (none, w) => Subscription.Ack w ids

/-- The method `Subscription.ModifyAckDeadline`. -/
def Subscription.ModifyAckDeadline (w : World) (id : String) (timeout : Int) : Option Error × World :=
  match w.sub.MessageStatus.FindByAckID id with
  | .error err => (some err, w)
  | .ok ms =>
    let r := w.sub.MessageStatus.SaveStatus { ms with AckDeadline := convertAckDeadlineSeconds timeout }
    (r.1, w.setStatus r.2)

/-- The readable rows of the subscription at `now`, in scan order. -/
def World.readableRows (w : World) (now : Int) : List MessageStatus :=
  w.rows.filter (fun r => r.Readable now)

/-- Key discipline of the AckStatus repository: no two rows under one
messageID. -/
def World.rowKeysNodup (w : World) : Prop :=
  (w.rows.map (fun r => r.MessageID)).Nodup

instance (w : World) : Decidable w.rowKeysNodup := by
  unfold World.rowKeysNodup; infer_instance

/-- Sequential acknowledgement, the reference for a batch: the state after
every ackID of `ids`, in order, has been acked successfully by
`MessageStatusStore.Ack`; `none` when one of them fails. -/
def ackInOrder (w : World) : List String → Option World
  | [] => some w
  | id :: ids =>
    match MessageStatusStore.Ack w id with
    | (none, w) => ackInOrder w ids
    | (some _, _) => none

/-- The row `r` as `Deliver` rewrites it. -/
def deliveredRow (now : Int) (ackID : String) (r : MessageStatus) : MessageStatus :=
  { r with AckState := stateDeliver, AckID := ackID, DeliveredAt := now }

/-- The row `r` after a pull that delivered the indexed messages `pairs`:
delivered under the ackID minted at the index of its Message, or untouched
when its Message is not among them. -/
def pulledRow (now : Int) (makeAckID : Nat → String) (pairs : List (Nat × Message))
    (r : MessageStatus) : MessageStatus :=
  match pairs.find? (fun p => p.2.ID == r.MessageID) with
  | some p => deliveredRow now (makeAckID p.1) r
  | none => r

/-! ## Fan-out to a subscription -/

/-- Modelled from the spec: a write to the AckStatus repository whose Store
I/O can fail. `fault` is the outcome of the I/O of this write: with an error
the write fails with it and stores nothing, without one it is `Set`. -/
def DatastoreMessageStatus.SetWithFault (d : DatastoreMessageStatus) (fault : Option Error)
    (ms : MessageStatus) : Option Error × DatastoreMessageStatus :=
  match fault with
  | some err => (some err, d)
  | none => d.Set ms

/-- The method `MessageStatusStore.SaveStatus` over a Store whose I/O can
fail. -/
def MessageStatusStore.SaveStatusWithFault (s : MessageStatusStore) (fault : Option Error)
    (ms : MessageStatus) : Option Error × MessageStatusStore :=
  let r := s.store.SetWithFault fault ms
  (r.1, { s with store := r.2 })

/-- Modelled from the spec: the Subscription repository behind
`globalSubscription`, declared outside the listed sources: the stored
Subscriptions, each under its name. -/
structure DatastoreSubscription where
  store : List Subscription
  deriving DecidableEq, Repr

/-- Modelled from the spec: persist a Subscription under its name, replacing
the value already under that key; `fault` is the outcome of the Store I/O of
this write. -/
def DatastoreSubscription.Set (d : DatastoreSubscription) (fault : Option Error)
    (s : Subscription) : Option Error × DatastoreSubscription :=
  match fault with
  | some err => (some err, d)
  | none =>
    if d.store.any (fun x => x.Name == s.Name) then
      (none, { d with store := d.store.map (fun x => if x.Name == s.Name then s else x) })
    else
      (none, { d with store := d.store ++ [s] })

/-- The method `Subscription.Save`. -/
def Subscription.Save (s : Subscription) (globalSubscription : DatastoreSubscription)
    (fault : Option Error) : Option Error × DatastoreSubscription :=
  globalSubscription.Set fault s

/-- The method `Subscription.RegisterMessage`; `statusFault` and `saveFault`
are the outcomes of the Store I/O of its two writes. The result of
`SaveStatus` is dropped, as in the source, and the result of `Save` is
returned. -/
def Subscription.RegisterMessage (s : Subscription) (globalSubscription : DatastoreSubscription)
    (msg : Message) (statusFault saveFault : Option Error) :
    Option Error × Subscription × DatastoreSubscription :=
  let r := s.MessageStatus.SaveStatusWithFault statusFault
    (newMessageStatus msg.ID s.Name s.DefaultAckDeadline)
  let s := { s with MessageStatus := r.2 }
  let g := s.Save globalSubscription saveFault
  (g.1, s, g.2)

/-! ## The publish handler -/

/-- The struct `PublishData`. -/
structure PublishData where
  Data : List Nat
  Attr : List (String × String)
  deriving DecidableEq, Repr

/-- The struct `PublishDatas`. -/
structure PublishDatas where
  Messages : List PublishData
  deriving DecidableEq, Repr

/-- The struct `ResponsePublish`. -/
structure ResponsePublish where
  MessageIDs : List String
  deriving DecidableEq, Repr

/-- The struct `ErrorResponse`; its field `Error` is `Err` here. -/
structure ErrorResponse where
  Message : String
  Err : Error
  deriving DecidableEq, Repr

/-- The value a handler hands to `Respond`. -/
inductive ResponseSource where
  | error (e : ErrorResponse)
  | publish (r : ResponsePublish)
  deriving DecidableEq, Repr

/-- What a handler wrote to its `http.ResponseWriter`: the status code of
`WriteHeader` and the value whose JSON is the body. -/
structure Response where
  code : Nat
  src : ResponseSource
  deriving DecidableEq, Repr

/-- Go `http.StatusOK`. -/
def StatusOK : Nat := 200

/-- Go `http.StatusNotFound`. -/
def StatusNotFound : Nat := 404

/-- Go `http.StatusInternalServerError`. -/
def StatusInternalServerError : Nat := 500

/-- The function `Respond` on the two kinds of value the publish handler
passes: `json.Marshal` does not fail on them (the error of an `ErrorResponse`
is not serialised), so `code` and the body are written. -/
def Respond (code : Nat) (src : ResponseSource) : Response :=
  { code := code, src := src }

/-- The function `Error` of package `server`. -/
def respondError (code : Nat) (err : Error) (msg : String) : Response :=
  Respond code (.error { Message := msg, Err := err })

/-- The function `JSON` of package `server`, on a `ResponsePublish`. -/
def JSON (code : Nat) (src : ResponsePublish) : Response :=
  Respond code (.publish src)

/-- Modelled from the spec: the entity Topic, whose struct is declared outside
the listed sources: its name. -/
structure Topic where
  Name : String
  deriving DecidableEq, Repr

/-- The functions of package `models` that the publish handler calls, declared
outside the listed sources, over the state `σ` of the repositories:
`models.GetTopic` and `Topic.Publish`, which returns the new message ID or an
error and the state it leaves. -/
structure TopicModels (σ : Type) where
  GetTopic : σ → String → Except Error Topic
  Publish : σ → Topic → List Nat → List (String × String) → Except Error String × σ

/-- Modelled from the spec: the telemetry counters of topics, declared outside
the listed sources (package `stats`): the message count of each topic. -/
structure TopicAdapter where
  messageCount : String → Int

/-- Modelled from the spec: `TopicAdapter.AddMessage`: add `num` to the
message count of the topic. -/
def TopicAdapter.AddMessage (a : TopicAdapter) (topicID : String) (num : Int) : TopicAdapter :=
  { messageCount := fun n => if n = topicID then a.messageCount n + num else a.messageCount n }

/-- The state a handler of `TopicServer` works on: the repositories and the
topic counters. -/
structure ServerState (σ : Type) where
  repos : σ
  stats : TopicAdapter

/-- The loop of `TopicServer.Publish` over the messages still to publish;
`pubIDs` is the slice of the source. -/
def publishLoop {σ : Type} (m : TopicModels σ) (t : Topic) :
    σ → List PublishData → List String → Except Error (List String) × σ
  | repos, [], pubIDs => (.ok pubIDs, repos)
  | repos, d :: rest, pubIDs =>
    match m.Publish repos t d.Data d.Attr with
    | (.error err, repos) => (.error err, repos)
    | (.ok id, repos) => publishLoop m t repos rest (pubIDs ++ [id])

/-- The method `TopicServer.Publish`; `decoded` is the result of decoding the
request body into a `PublishDatas`. -/
def TopicServer.Publish {σ : Type} (m : TopicModels σ) (st : ServerState σ)
    (decoded : Except Error PublishDatas) (id : String) : Response × ServerState σ :=
  match decoded with
  | .error err => (respondError StatusNotFound err "failed to parsed request", st)
  | .ok datas =>
    match m.GetTopic st.repos id with
    | .error err => (respondError StatusNotFound err "not found topic", st)
    | .ok t =>
      match publishLoop m t st.repos datas.Messages [] with
      | (.error err, repos) =>
        (respondError StatusInternalServerError err "failed publish message",
          { st with repos := repos })
      | (.ok pubIDs, repos) =>
        (JSON StatusOK { MessageIDs := pubIDs },
          { st with repos := repos
                    stats := st.stats.AddMessage t.Name datas.Messages.length })

/-- Publishing in order, the reference for a request: the IDs that
`Topic.Publish` returns for the messages, each accepted in turn, and the state
reached; `none` when one of them is refused. -/
def publishInOrder {σ : Type} (m : TopicModels σ) (t : Topic) :
    σ → List PublishData → Option (List String × σ)
  | repos, [] => some ([], repos)
  | repos, d :: rest =>
    match m.Publish repos t d.Data d.Attr with
    | (.error _, _) => none
    | (.ok id, repos) =>
      match publishInOrder m t repos rest with
      | none => none
      | some r => some (id :: r.1, r.2)

/-! ## Sample states -/

/-- A Message with the given ID and remaining subscriptions. -/
def sampleMessage (id : String) (subs : List String) : Message :=
  { ID := id, Data := [100], Attributes := [], Subscriptions := subs, PublishedAt := 0 }

/-- A delivered row of subscription `s1`. -/
def sampleDelivered (msgID ackID : String) (deadline deliveredAt : Int) : MessageStatus :=
  { MessageID := msgID, SubscriptionID := "s1", AckID := ackID, AckDeadline := deadline,
    AckState := stateDeliver, DeliveredAt := deliveredAt }

/-- A state of subscription `s1` with the given rows and stored Messages. -/
def sampleWorld (rows : List MessageStatus) (msgs : List Message) : World :=
  { globalMessage := { store := msgs }
    sub := { Name := "s1", TopicID := "t1", DefaultAckDeadline := 10 * Second,
             MessageStatus := { store := { rows := rows } } } }

/-- Subscription `s1` after fan-out of `m3`, `m1`, `m2`, scanned in that
order; `m2` is also awaited by `s2`. -/
def sampleFanout : World :=
  sampleWorld
    [newMessageStatus "m3" "s1" (10 * Second), newMessageStatus "m1" "s1" (10 * Second),
      newMessageStatus "m2" "s1" (10 * Second)]
    [sampleMessage "m1" ["s1"], sampleMessage "m2" ["s1", "s2"], sampleMessage "m3" ["s1"]]

/-- Subscription `s1` with `m1` delivered under ackID `a1` and `m2` delivered
under ackID `a2`; `m2` is also awaited by `s2`. -/
def sampleDeliveredWorld : World :=
  sampleWorld
    [sampleDelivered "m1" "a1" (10 * Second) 0, sampleDelivered "m2" "a2" (10 * Second) 0]
    [sampleMessage "m1" ["s1"], sampleMessage "m2" ["s1", "s2"]]

/-- The ackIDs minted in the sample pulls: `b0`, `b1`, ... -/
def sampleAckID (i : Nat) : String := "b" ++ toString i

/-- Sample repositories for the publish handler: the state is the number of
messages published so far, the only topic is `t1`, and a message is accepted,
under the ID `m` followed by that number, unless its payload is empty. -/
def sampleModels : TopicModels Nat :=
  { GetTopic := fun _ id => if id = "t1" then .ok { Name := "t1" } else .error ErrNotFoundEntry
    Publish := fun n _ data _ =>
      if data = [] then (.error ErrEmptyMessage, n) else (.ok ("m" ++ toString n), n + 1) }

/-- A server state with no message published and every counter at zero. -/
def sampleServer : ServerState Nat :=
  { repos := 0, stats := { messageCount := fun _ => 0 } }

/-! ## Visibility and the ack deadline -/

theorem timeSub_gt_iff (now d dl : Int) (h1 : minInt64 ≤ dl) (h2 : dl < maxInt64) :
    Time.Sub now d > dl ↔ now - d > dl := by
  unfold Time.Sub
  unfold minInt64 at h1
  unfold maxInt64 at h2
  unfold minInt64 maxInt64
  split_ifs <;> constructor <;> intro h <;> omega

/-- C1: a row is readable exactly when its state is Wait, or its state is
Deliver and the time elapsed since delivery is strictly greater than its ack
deadline; a row in state Ack or in any other state is never readable, and a
delivered row is not readable when the elapsed time equals the deadline. -/
theorem readable_iff (m : MessageStatus) (now : Int) :
    (m.Readable now = true ↔
      (m.AckState = stateWait ∨
        (m.AckState = stateDeliver ∧ Time.Sub now m.DeliveredAt > m.AckDeadline))) ∧
    (m.AckState = stateAck → m.Readable now = false) ∧
    (m.AckState ≠ stateWait → m.AckState ≠ stateDeliver → m.Readable now = false) ∧
    (m.AckState = stateDeliver → Time.Sub now m.DeliveredAt = m.AckDeadline →
      m.Readable now = false) := by
  unfold MessageStatus.Readable
  refine ⟨?_, ?_, ?_, ?_⟩
  · by_cases h1 : m.AckState = stateAck
    · simp [h1, stateAck, stateWait, stateDeliver]
    · by_cases h2 : m.AckState = stateDeliver
      · simp [h2, stateAck, stateWait, stateDeliver]
      · by_cases h3 : m.AckState = stateWait
        · simp [h3, stateAck, stateWait, stateDeliver]
        · simp [h1, h2, h3]
  · intro h; simp [h]
  · intro h1 h2; simp [h1, h2]
  · intro h1 h2
    simp [h1, h2, stateAck, stateDeliver]

theorem convertAckDeadlineSeconds_inRange (timeout : Int) (h : timeout ≤ 9223372036) :
    convertAckDeadlineSeconds timeout = max 0 timeout * Second ∧
      0 ≤ convertAckDeadlineSeconds timeout := by
  by_cases h0 : timeout < 0
  · have h1 : max 0 timeout = 0 := max_eq_left (le_of_lt h0)
    rw [h1]
    simp only [convertAckDeadlineSeconds, wrapInt64, Second, if_pos h0]
    decide
  · have h1 : max 0 timeout = timeout := max_eq_right (by omega)
    rw [h1]
    clear h1
    simp only [convertAckDeadlineSeconds, wrapInt64, Second, if_neg h0]
    have h2 : (timeout * 1000000000 + 9223372036854775808) % 18446744073709551616 =
        timeout * 1000000000 + 9223372036854775808 :=
      Int.emod_eq_of_lt (by omega) (by omega)
    rw [h2]
    omega

/-- C6: at the `int64` timeout 9223372037 the product with `time.Second`
wraps: the ack deadline is negative, not `max(0, timeout)` seconds. -/
theorem convertAckDeadlineSeconds_wraps :
    minInt64 ≤ 9223372037 ∧ (9223372037 : Int) ≤ maxInt64 ∧
    convertAckDeadlineSeconds 9223372037 = -9223372036709551616 ∧
    convertAckDeadlineSeconds 9223372037 < 0 ∧
    convertAckDeadlineSeconds 9223372037 ≠ max 0 9223372037 * Second := by
  decide

/-! ## Store lemmas -/

theorem DatastoreMessage.set_fst (d : DatastoreMessage) (m : Message) : (d.Set m).1 = none := by
  unfold DatastoreMessage.Set; split <;> rfl

theorem find?_map_replace {α : Type} (p : α → Bool) (v : α) (hv : p v = true) (l : List α) :
    (l.map (fun x => if p x then v else x)).find? p = (l.find? p).map (fun _ => v) := by
  induction l with
  | nil => rfl
  | cons a t ih =>
    cases h : p a with
    | true => simp only [List.map_cons, List.find?_cons, h, if_true, hv, Option.map]
    | false =>
      simp only [List.map_cons, List.find?_cons, h, Bool.false_eq_true, if_false, ih]

theorem find?_eq_none_of_any_false {α : Type} (p : α → Bool) (l : List α)
    (h : ¬ l.any p = true) : l.find? p = none := by
  rw [List.find?_eq_none]
  intro x hx hx2
  exact h (List.any_eq_true.mpr ⟨x, hx, hx2⟩)

theorem find?_isSome_of_any {α : Type} (p : α → Bool) (l : List α)
    (h : l.any p = true) : ∃ y, l.find? p = some y := by
  obtain ⟨x, hx, hx2⟩ := List.any_eq_true.mp h
  cases hf : l.find? p with
  | none => exact absurd hx2 (List.find?_eq_none.mp hf x hx)
  | some y => exact ⟨y, rfl⟩

theorem DatastoreMessage.get_set_self (d : DatastoreMessage) (m : Message) :
    (d.Set m).2.Get m.ID = .ok m := by
  by_cases h : d.store.any (fun x => x.ID == m.ID) = true
  · obtain ⟨y, hy⟩ := find?_isSome_of_any _ _ h
    simp only [DatastoreMessage.Set, if_pos h, DatastoreMessage.Get]
    rw [find?_map_replace (fun x => x.ID == m.ID) m (by simp), hy]
    rfl
  · have hn := find?_eq_none_of_any_false _ _ h
    simp only [DatastoreMessage.Set, if_neg h, DatastoreMessage.Get]
    simp [List.find?_append, hn]

theorem DatastoreMessage.get_delete_self (d : DatastoreMessage) (key : String) :
    (d.Delete key).2.Get key = .error ErrNotFoundEntry := by
  by_cases h : d.store.any (fun x => x.ID == key) = true
  · have hn : (d.store.filter (fun x => x.ID != key)).find? (fun x => x.ID == key) = none := by
      rw [List.find?_eq_none]
      intro x hx
      have := (List.mem_filter.mp hx).2
      simpa using this
    simp only [DatastoreMessage.Delete, if_pos h, DatastoreMessage.Get, hn]
  · have hn := find?_eq_none_of_any_false _ _ h
    simp only [DatastoreMessage.Delete, if_neg h, DatastoreMessage.Get, hn]

theorem DatastoreMessage.get_ok (d : DatastoreMessage) (key : String) (m : Message)
    (h : d.Get key = .ok m) : m ∈ d.store ∧ m.ID = key := by
  unfold DatastoreMessage.Get at h
  cases hf : d.store.find? (fun x => x.ID == key) with
  | none => rw [hf] at h; cases h
  | some y =>
    rw [hf] at h
    cases h
    exact ⟨List.mem_of_find?_eq_some hf, by simpa using List.find?_some hf⟩

theorem DatastoreMessage.delete_fst_of_get (d : DatastoreMessage) (key : String) (m : Message)
    (h : d.Get key = .ok m) : (d.Delete key).1 = none := by
  obtain ⟨hm, hk⟩ := d.get_ok key m h
  have : d.store.any (fun x => x.ID == key) = true :=
    List.any_eq_true.mpr ⟨m, hm, by simp [hk]⟩
  simp [DatastoreMessage.Delete, this]

theorem DatastoreMessageStatus.delete_rows (d : DatastoreMessageStatus) (key : String) :
    (d.Delete key).2.rows = d.rows.filter (fun r => r.MessageID != key) := by
  unfold DatastoreMessageStatus.Delete
  split
  · rfl
  · rename_i h
    symm
    rw [List.filter_eq_self]
    intro r hr
    by_contra hc
    exact h (List.any_eq_true.mpr ⟨r, hr, by simpa using hc⟩)

theorem DatastoreMessageStatus.findByAckID_ok (d : DatastoreMessageStatus) (id : String)
    (ms : MessageStatus) (h : d.FindByAckID id = .ok ms) : ms ∈ d.rows ∧ ms.AckID = id := by
  unfold DatastoreMessageStatus.FindByAckID at h
  cases hf : d.rows.find? (fun r => r.AckID == id) with
  | none => rw [hf] at h; cases h
  | some y =>
    rw [hf] at h
    cases h
    exact ⟨List.mem_of_find?_eq_some hf, by simpa using List.find?_some hf⟩

theorem DatastoreMessageStatus.findByAckID_error (d : DatastoreMessageStatus) (id : String)
    (h : ∀ r ∈ d.rows, r.AckID ≠ id) : d.FindByAckID id = .error ErrNotFoundEntry := by
  unfold DatastoreMessageStatus.FindByAckID
  have hn : d.rows.find? (fun r => r.AckID == id) = none := by
    rw [List.find?_eq_none]
    intro r hr
    simpa using h r hr
  simp only [hn]

/-- The state a successful `MessageStatusStore.Ack` leaves, when the ackID
resolves to the row `ms` and the Message `m` of that row is stored. -/
theorem MessageStatusStore.ack_ok (w : World) (ackID : String) (ms : MessageStatus) (m : Message)
    (hms : w.sub.MessageStatus.FindByAckID ackID = .ok ms)
    (hm : w.globalMessage.Get ms.MessageID = .ok m) :
    MessageStatusStore.Ack w ackID =
      (none,
        { globalMessage :=
            if (m.AckSubscription ms.SubscriptionID).Subscriptions.length = 0 then
              ((w.globalMessage.Set (m.AckSubscription ms.SubscriptionID)).2.Delete ms.MessageID).2
            else (w.globalMessage.Set (m.AckSubscription ms.SubscriptionID)).2
          sub := { w.sub with MessageStatus :=
            { w.sub.MessageStatus with store := (w.sub.MessageStatus.store.Delete ms.MessageID).2 } } }) := by
  have hid : m.ID = ms.MessageID := (w.globalMessage.get_ok _ _ hm).2
  have hid2 : (m.AckSubscription ms.SubscriptionID).ID = ms.MessageID := hid
  unfold MessageStatusStore.FindByAckID at hms
  have hs : (m.AckSubscription ms.SubscriptionID).Save w.globalMessage =
      (none, (w.globalMessage.Set (m.AckSubscription ms.SubscriptionID)).2) :=
    Prod.ext (w.globalMessage.set_fst _) rfl
  have hd : (m.AckSubscription ms.SubscriptionID).Delete
        (w.globalMessage.Set (m.AckSubscription ms.SubscriptionID)).2 =
      (none, ((w.globalMessage.Set (m.AckSubscription ms.SubscriptionID)).2.Delete ms.MessageID).2) := by
    unfold Message.Delete
    rw [hid2]
    refine Prod.ext ?_ rfl
    have := (w.globalMessage.get_set_self (m.AckSubscription ms.SubscriptionID))
    rw [hid2] at this
    exact DatastoreMessage.delete_fst_of_get _ _ _ this
  unfold MessageStatusStore.Ack
  simp only [hms, hm, hs, World.setStatus, hid2]
  by_cases hl : (m.AckSubscription ms.SubscriptionID).Subscriptions.length = 0
  · simp only [hl, if_true, hd]
  · simp only [hl, if_false]


/-- A failing `MessageStatusStore.Ack` fails with `ErrNotFoundEntry` and leaves
the state as it was. -/
theorem MessageStatusStore.ack_error (w : World) (ackID : String) (err : Error)
    (h : (MessageStatusStore.Ack w ackID).1 = some err) :
    MessageStatusStore.Ack w ackID = (some ErrNotFoundEntry, w) := by
  cases hms : w.sub.MessageStatus.FindByAckID ackID with
  | error e =>
    unfold MessageStatusStore.FindByAckID at hms
    simp only [MessageStatusStore.Ack, hms]
  | ok ms =>
    cases hm : w.globalMessage.Get ms.MessageID with
    | error e =>
      unfold MessageStatusStore.FindByAckID at hms
      simp only [MessageStatusStore.Ack, hms, hm]
    | ok m =>
      rw [MessageStatusStore.ack_ok w ackID ms m hms hm] at h
      cases h

/-! ## Acknowledgement -/

/-- C3: when the ackID resolves to the row `ms` of subscription
`ms.SubscriptionID` and the Message `m` of that row is stored, Ack succeeds;
afterwards no row is stored under that messageID (the other rows are kept), the
subscription is no longer among the remaining subscriptions of the Message
while every other name is, and the Message is still stored, with that set,
exactly when the set is non-empty: otherwise it is deleted. -/
theorem ack_removes_row_and_subscription (w : World) (ackID : String) (ms : MessageStatus)
    (m : Message)
    (hms : w.sub.MessageStatus.FindByAckID ackID = .ok ms)
    (hm : w.globalMessage.Get ms.MessageID = .ok m) :
    (MessageStatusStore.Ack w ackID).1 = none ∧
    (∀ r ∈ (MessageStatusStore.Ack w ackID).2.rows, r.MessageID ≠ ms.MessageID) ∧
    (MessageStatusStore.Ack w ackID).2.rows =
      w.rows.filter (fun r => r.MessageID != ms.MessageID) ∧
    ms.SubscriptionID ∉ (m.AckSubscription ms.SubscriptionID).Subscriptions ∧
    (∀ n, n ≠ ms.SubscriptionID →
      (n ∈ (m.AckSubscription ms.SubscriptionID).Subscriptions ↔ n ∈ m.Subscriptions)) ∧
    ((m.AckSubscription ms.SubscriptionID).Subscriptions ≠ [] →
      (MessageStatusStore.Ack w ackID).2.globalMessage.Get ms.MessageID =
        .ok (m.AckSubscription ms.SubscriptionID)) ∧
    ((m.AckSubscription ms.SubscriptionID).Subscriptions = [] →
      (MessageStatusStore.Ack w ackID).2.globalMessage.Get ms.MessageID =
        .error ErrNotFoundEntry) := by
  have hid : (m.AckSubscription ms.SubscriptionID).ID = ms.MessageID :=
    (w.globalMessage.get_ok _ _ hm).2
  have hrows : (MessageStatusStore.Ack w ackID).2.rows =
      w.rows.filter (fun r => r.MessageID != ms.MessageID) := by
    rw [MessageStatusStore.ack_ok w ackID ms m hms hm]
    exact DatastoreMessageStatus.delete_rows _ _
  refine ⟨?_, ?_, hrows, ?_, ?_, ?_, ?_⟩
  · rw [MessageStatusStore.ack_ok w ackID ms m hms hm]
  · intro r hr
    rw [hrows] at hr
    simpa using (List.mem_filter.mp hr).2
  · simp [Message.AckSubscription]
  · intro n hn
    simp [Message.AckSubscription, hn]
  · intro hne
    rw [MessageStatusStore.ack_ok w ackID ms m hms hm]
    have hl : ¬ (m.AckSubscription ms.SubscriptionID).Subscriptions.length = 0 := by
      simpa [List.length_eq_zero] using hne
    simp only [hl, if_false]
    have := w.globalMessage.get_set_self (m.AckSubscription ms.SubscriptionID)
    rwa [hid] at this
  · intro he
    rw [MessageStatusStore.ack_ok w ackID ms m hms hm]
    have hl : (m.AckSubscription ms.SubscriptionID).Subscriptions.length = 0 := by
      simp [he]
    simp only [hl, if_true]
    exact DatastoreMessage.get_delete_self _ _

/-- Witness of C3: in the sample state, ackID `a2` resolves to the row of `m2`,
which `s2` still awaits: Ack succeeds, and `m2` stays stored for `s2` alone. -/
theorem ack_removes_row_and_subscription_witness :
    sampleDeliveredWorld.sub.MessageStatus.FindByAckID "a2" =
        .ok (sampleDelivered "m2" "a2" (10 * Second) 0) ∧
      sampleDeliveredWorld.globalMessage.Get "m2" = .ok (sampleMessage "m2" ["s1", "s2"]) ∧
      (MessageStatusStore.Ack sampleDeliveredWorld "a2").1 = none ∧
      (MessageStatusStore.Ack sampleDeliveredWorld "a2").2.globalMessage.Get "m2" =
        .ok (sampleMessage "m2" ["s2"]) :=
  ⟨rfl, rfl,
    (ack_removes_row_and_subscription sampleDeliveredWorld "a2"
      (sampleDelivered "m2" "a2" (10 * Second) 0) (sampleMessage "m2" ["s1", "s2"]) rfl rfl).1,
    (ack_removes_row_and_subscription sampleDeliveredWorld "a2"
      (sampleDelivered "m2" "a2" (10 * Second) 0) (sampleMessage "m2" ["s1", "s2"]) rfl rfl).2.2.2.2.2.1
      (by decide)⟩

/-- C4: an ackID that no row carries makes Ack fail with `ErrNotFoundEntry`,
alone or at the head of a batch, and the Message repository and the rows are
left exactly as they were. -/
theorem ack_unknown_ackID (w : World) (ackID : String) (rest : List String)
    (h : ∀ r ∈ w.rows, r.AckID ≠ ackID) :
    MessageStatusStore.Ack w ackID = (some ErrNotFoundEntry, w) ∧
    Subscription.Ack w (ackID :: rest) = (some ErrNotFoundEntry, w) := by
  have hf := DatastoreMessageStatus.findByAckID_error w.sub.MessageStatus.store ackID h
  have h1 : MessageStatusStore.Ack w ackID = (some ErrNotFoundEntry, w) := by
    simp only [MessageStatusStore.Ack, hf]
  refine ⟨h1, ?_⟩
  simp only [Subscription.Ack, h1]

/-- Witness of C4: no row of the sample state carries ackID `zz`. -/
theorem ack_unknown_ackID_witness :
    (∀ r ∈ sampleDeliveredWorld.rows, r.AckID ≠ "zz") ∧
      MessageStatusStore.Ack sampleDeliveredWorld "zz" =
        (some ErrNotFoundEntry, sampleDeliveredWorld) :=
  ⟨by decide, (ack_unknown_ackID sampleDeliveredWorld "zz" [] (by decide)).1⟩

theorem Subscription.ack_append (w w1 : World) (pre rest : List String)
    (hpre : ackInOrder w pre = some w1) :
    Subscription.Ack w (pre ++ rest) = Subscription.Ack w1 rest := by
  induction pre generalizing w with
  | nil =>
    simp only [ackInOrder, Option.some.injEq] at hpre
    rw [hpre, List.nil_append]
  | cons a t ih =>
    rcases hr : MessageStatusStore.Ack w a with ⟨e, w2⟩
    cases e with
    | none =>
      simp only [ackInOrder, hr] at hpre
      simp only [List.cons_append, Subscription.Ack, hr]
      exact ih w2 hpre
    | some err =>
      simp only [ackInOrder, hr] at hpre
      cases hpre

/-- C5: in a batch `pre ++ [bad] ++ post` where each ackID of `pre` acks
successfully in turn and `bad` then fails, the batch returns the error of
`bad`, and the state is the one reached by acking `pre` in order: nothing is
rolled back, and the result is the same for every `post`. -/
theorem ack_batch_stops_at_first_error (w w1 : World) (pre post : List String) (bad : String)
    (err : Error)
    (hpre : ackInOrder w pre = some w1)
    (hbad : (MessageStatusStore.Ack w1 bad).1 = some err) :
    Subscription.Ack w (pre ++ [bad] ++ post) = (some err, w1) ∧
    Subscription.Ack w pre = (none, w1) := by
  have h1 := MessageStatusStore.ack_error w1 bad err hbad
  have he : err = ErrNotFoundEntry := by
    rw [h1] at hbad
    exact (Option.some.inj hbad).symm
  constructor
  · rw [List.append_assoc, Subscription.ack_append w w1 pre _ hpre]
    simp only [List.singleton_append, Subscription.Ack, h1, he]
  · have := Subscription.ack_append w w1 pre [] hpre
    rw [List.append_nil] at this
    rw [this]
    rfl

/-- Witness of C5: in the sample state the batch `a1`, `zz`, `a2` acks `a1`,
fails at `zz` and leaves `a2` unprocessed. -/
theorem ack_batch_stops_at_first_error_witness :
    Subscription.Ack sampleDeliveredWorld (["a1"] ++ ["zz"] ++ ["a2"]) =
      (some ErrNotFoundEntry,
        sampleWorld [sampleDelivered "m2" "a2" (10 * Second) 0] [sampleMessage "m2" ["s1", "s2"]]) :=
  (ack_batch_stops_at_first_error sampleDeliveredWorld
    (sampleWorld [sampleDelivered "m2" "a2" (10 * Second) 0] [sampleMessage "m2" ["s1", "s2"]])
    ["a1"] ["a2"] "zz" ErrNotFoundEntry (by decide) (by decide)).1

/-- C8: Ack with the empty ackID resolves to a row in state Wait, whose ackID
is the empty string since fan-out: the row is deleted without ever having been
delivered and its subscription leaves the remaining subscriptions of the
Message. -/
theorem ack_empty_ackID_acks_waiting_row :
    (newMessageStatus "m2" "s1" (10 * Second)).AckState = stateWait ∧
    (newMessageStatus "m2" "s1" (10 * Second)).AckID = "" ∧
    MessageStatusStore.Ack
        (sampleWorld [newMessageStatus "m2" "s1" (10 * Second)] [sampleMessage "m2" ["s1", "s2"]]) "" =
      (none, sampleWorld [] [sampleMessage "m2" ["s2"]]) := by
  decide

/-! ## ModifyAckDeadline -/

theorem World.row_eq_of_key (w : World) (hk : w.rowKeysNodup) (x y : MessageStatus)
    (hx : x ∈ w.rows) (hy : y ∈ w.rows) (h : x.MessageID = y.MessageID) : x = y :=
  List.inj_on_of_nodup_map hk hx hy h

theorem DatastoreMessageStatus.set_of_mem (d : DatastoreMessageStatus) (ms : MessageStatus)
    (h : ∃ r ∈ d.rows, r.MessageID = ms.MessageID) :
    d.Set ms =
      (none, { d with rows := d.rows.map (fun r => if r.MessageID == ms.MessageID then ms else r) }) := by
  obtain ⟨r, hr, hr2⟩ := h
  have : d.rows.any (fun r => r.MessageID == ms.MessageID) = true :=
    List.any_eq_true.mpr ⟨r, hr, by simp [hr2]⟩
  simp only [DatastoreMessageStatus.Set, if_pos this]

/-- C7: when the ackID resolves to the row `ms` (rows are stored one per
messageID), ModifyAckDeadline succeeds; the Message repository is unchanged,
and the rows are the former rows, in place, except that `ms` now has the
converted timeout as its ackDeadline, its other fields unchanged; the row read
back under its messageID is that row. For a timeout up to 9223372036 the
converted timeout is `max(0, timeout)` seconds. -/
theorem modifyAckDeadline_frame (w : World) (ackID : String) (timeout : Int) (ms : MessageStatus)
    (hk : w.rowKeysNodup)
    (hms : w.sub.MessageStatus.FindByAckID ackID = .ok ms) :
    (Subscription.ModifyAckDeadline w ackID timeout).1 = none ∧
    (Subscription.ModifyAckDeadline w ackID timeout).2.globalMessage = w.globalMessage ∧
    (Subscription.ModifyAckDeadline w ackID timeout).2.rows =
      w.rows.map (fun r =>
        if r = ms then { r with AckDeadline := convertAckDeadlineSeconds timeout } else r) ∧
    (Subscription.ModifyAckDeadline w ackID timeout).2.sub.MessageStatus.FindByMessageID ms.MessageID =
      .ok { MessageID := ms.MessageID, SubscriptionID := ms.SubscriptionID, AckID := ms.AckID,
            AckDeadline := convertAckDeadlineSeconds timeout, AckState := ms.AckState,
            DeliveredAt := ms.DeliveredAt } ∧
    (timeout ≤ 9223372036 → convertAckDeadlineSeconds timeout = max 0 timeout * Second) := by
  have hmem : ms ∈ w.rows := (DatastoreMessageStatus.findByAckID_ok _ _ _ hms).1
  have hset := DatastoreMessageStatus.set_of_mem w.sub.MessageStatus.store
    { ms with AckDeadline := convertAckDeadlineSeconds timeout } ⟨ms, hmem, rfl⟩
  have hrun : Subscription.ModifyAckDeadline w ackID timeout =
      (none, w.setStatus { w.sub.MessageStatus with store :=
        { w.sub.MessageStatus.store with rows := w.rows.map (fun r =>
            if r.MessageID == ms.MessageID then
              { ms with AckDeadline := convertAckDeadlineSeconds timeout }
            else r) } }) := by
    simp only [Subscription.ModifyAckDeadline, hms, MessageStatusStore.SaveStatus, hset]
    rfl
  rw [hrun]
  refine ⟨rfl, rfl, ?_, ?_, fun h => (convertAckDeadlineSeconds_inRange timeout h).1⟩
  · show w.rows.map _ = w.rows.map _
    apply List.map_congr_left
    intro r hr
    by_cases h : r = ms
    · simp [h]
    · have : r.MessageID ≠ ms.MessageID := fun hc => h (w.row_eq_of_key hk r ms hr hmem hc)
      simp [h, this]
  · show DatastoreMessageStatus.FindByMessageID ⟨w.rows.map _⟩ ms.MessageID = _
    unfold DatastoreMessageStatus.FindByMessageID
    have hany : w.rows.any (fun r => r.MessageID == ms.MessageID) = true :=
      List.any_eq_true.mpr ⟨ms, hmem, by simp⟩
    obtain ⟨y, hy⟩ := find?_isSome_of_any _ _ hany
    have hrep := find?_map_replace (fun r : MessageStatus => r.MessageID == ms.MessageID)
      { ms with AckDeadline := convertAckDeadlineSeconds timeout } (by simp) w.rows
    beta_reduce at hrep
    rw [hrep, hy]
    rfl

/-- Witness of C7: in the sample state ackID `a1` resolves to the row of `m1`;
a timeout of 30 makes its ackDeadline 30 seconds and leaves the row of `m2`
alone. -/
theorem modifyAckDeadline_frame_witness :
    sampleDeliveredWorld.rowKeysNodup ∧
      (Subscription.ModifyAckDeadline sampleDeliveredWorld "a1" 30).2.rows =
        [sampleDelivered "m1" "a1" (30 * Second) 0, sampleDelivered "m2" "a2" (10 * Second) 0] :=
  ⟨by decide,
    (modifyAckDeadline_frame sampleDeliveredWorld "a1" 30 (sampleDelivered "m1" "a1" (10 * Second) 0)
      (by decide) rfl).2.2.1.trans (by decide)⟩

/-! ## The readable scan -/

theorem collectReadable_ok (g : DatastoreMessage) (now : Int) (rows : List MessageStatus) (n : Nat)
    (msgs : List Message) (h : collectReadable g now rows n = .ok msgs) :
    msgs.map (fun m => m.ID) =
        ((rows.filter (fun r => r.Readable now)).take n).map (fun r => r.MessageID) ∧
      ∀ m ∈ msgs, g.Get m.ID = .ok m := by
  induction rows generalizing n msgs with
  | nil =>
    cases n <;> simp only [collectReadable, Except.ok.injEq] at h <;> subst h <;> simp
  | cons r rest ih =>
    cases n with
    | zero =>
      simp only [collectReadable, Except.ok.injEq] at h
      subst h
      simp
    | succ n =>
      by_cases hr : r.Readable now = true
      · simp only [collectReadable, hr, if_true] at h
        cases hg : g.Get r.MessageID with
        | error e => rw [hg] at h; cases h
        | ok m =>
          rw [hg] at h
          cases hc : collectReadable g now rest n with
          | error e => rw [hc] at h; cases h
          | ok ms =>
            rw [hc] at h
            simp only [Except.ok.injEq] at h
            subst h
            obtain ⟨ih1, ih2⟩ := ih n ms hc
            have hid := (g.get_ok _ _ hg).2
            constructor
            · simp [List.filter_cons, hr, ih1, hid]
            · intro x hx
              rcases List.mem_cons.mp hx with rfl | hx
              · rw [hid]; exact hg
              · exact ih2 x hx
      · simp only [collectReadable, hr, Bool.false_eq_true, if_false] at h
        obtain ⟨ih1, ih2⟩ := ih (n + 1) msgs h
        exact ⟨by simp [List.filter_cons, hr, ih1], ih2⟩

theorem collectReadable_total (g : DatastoreMessage) (now : Int) (rows : List MessageStatus)
    (n : Nat)
    (h : ∀ r ∈ (rows.filter (fun r => r.Readable now)).take n, ∃ m, g.Get r.MessageID = .ok m) :
    ∃ msgs, collectReadable g now rows n = .ok msgs := by
  induction rows generalizing n with
  | nil => cases n <;> exact ⟨[], rfl⟩
  | cons r rest ih =>
    cases n with
    | zero => exact ⟨[], rfl⟩
    | succ n =>
      by_cases hr : r.Readable now = true
      · simp only [List.filter_cons, hr, if_true, List.take_succ_cons] at h
        obtain ⟨m, hm⟩ := h r (List.mem_cons_self _ _)
        obtain ⟨ms, hms⟩ := ih n (fun x hx => h x (List.mem_cons_of_mem _ hx))
        exact ⟨m :: ms, by simp only [collectReadable, hr, if_true, hm, hms]⟩
      · simp only [List.filter_cons, hr, Bool.false_eq_true, if_false] at h
        obtain ⟨ms, hms⟩ := ih (n + 1) h
        exact ⟨ms, by simp only [collectReadable, hr, Bool.false_eq_true, if_false, hms]⟩

theorem take_clamp {α : Type} (l : List α) (len : Nat) (size : Int) (hl : l.length ≤ len) :
    l.take (if (len : Int) < size then (len : Int) else size).toNat = l.take size.toNat := by
  by_cases h : (len : Int) < size
  · rw [if_pos h, Int.toNat_ofNat, List.take_of_length_le hl, List.take_of_length_le]
    omega
  · rw [if_neg h]

theorem sortByMessageID_perm (msgs : List Message) : (sortByMessageID msgs).Perm msgs :=
  List.perm_insertionSort _ msgs

theorem sortByMessageID_sorted (msgs : List Message) :
    ((sortByMessageID msgs).map (fun m => m.ID)).Sorted (fun a b => a ≤ b) := by
  have h : (sortByMessageID msgs).Sorted (fun a b => a.ID.data ≤ b.ID.data) := by
    haveI : IsTotal Message (fun a b => a.ID.data ≤ b.ID.data) := ⟨fun a b => le_total _ _⟩
    haveI : IsTrans Message (fun a b => a.ID.data ≤ b.ID.data) := ⟨fun a b c => le_trans⟩
    exact List.sorted_insertionSort _ msgs
  unfold List.Sorted at h ⊢
  rw [List.pairwise_map]
  exact h.imp (fun hab => String.le_iff_toList_le.mpr hab)

/-- What a successful `GetRangeMessage` returns: the Messages of the first
`size` readable rows of the scan, sorted by ID. -/
theorem MessageStatusStore.getRangeMessage_ok (s : MessageStatusStore) (g : DatastoreMessage)
    (now : Int) (size : Int) (msgs : List Message)
    (h : s.GetRangeMessage g now size = .ok msgs) :
    ∃ raw, msgs = sortByMessageID raw ∧ raw ≠ [] ∧
      raw.map (fun m => m.ID) =
        ((s.store.rows.filter (fun r => r.Readable now)).take size.toNat).map
          (fun r => r.MessageID) ∧
      ∀ m ∈ raw, g.Get m.ID = .ok m := by
  unfold MessageStatusStore.GetRangeMessage at h
  simp only [DatastoreMessageStatus.Size, DatastoreMessageStatus.CollectByReadableMessage] at h
  by_cases h0 : (s.store.rows.length : Int) = 0
  · rw [if_pos h0] at h; cases h
  · rw [if_neg h0] at h
    cases hc : collectReadable g now s.store.rows
        (if (s.store.rows.length : Int) < size then (s.store.rows.length : Int) else size).toNat with
    | error e => rw [hc] at h; cases h
    | ok raw =>
      rw [hc] at h
      by_cases hl : raw.length = 0
      · simp only [hl, if_true] at h; cases h
      · simp only [hl, if_false, Except.ok.injEq] at h
        obtain ⟨h1, h2⟩ := collectReadable_ok g now _ _ raw hc
        rw [take_clamp _ _ _ (List.length_filter_le _ _)] at h1
        exact ⟨raw, h.symm, fun hn => hl (by simp [hn]), h1, h2⟩

/-! ## Delivery -/

theorem DatastoreMessageStatus.find_of_mem (rows : List MessageStatus)
    (hk : (rows.map (fun r => r.MessageID)).Nodup) (x : MessageStatus) (hx : x ∈ rows) :
    rows.find? (fun r => r.MessageID == x.MessageID) = some x := by
  have hany : rows.any (fun r => r.MessageID == x.MessageID) = true :=
    List.any_eq_true.mpr ⟨x, hx, by simp⟩
  obtain ⟨y, hy⟩ := find?_isSome_of_any _ _ hany
  have hy1 := List.mem_of_find?_eq_some hy
  have hy2 : y.MessageID = x.MessageID := by simpa using List.find?_some hy
  rw [hy, List.inj_on_of_nodup_map hk hy1 hx hy2]

theorem MessageStatusStore.deliver_ok (s : MessageStatusStore) (now : Int) (ackID : String)
    (hk : (s.store.rows.map (fun r => r.MessageID)).Nodup)
    (x : MessageStatus) (hx : x ∈ s.store.rows) (hst : x.AckState ≠ stateAck) :
    s.Deliver now x.MessageID ackID =
      (none, { s with store := { s.store with rows := s.store.rows.map (fun y =>
        if y.MessageID == x.MessageID then deliveredRow now ackID y else y) } }) := by
  have hf := DatastoreMessageStatus.find_of_mem s.store.rows hk x hx
  have hset := DatastoreMessageStatus.set_of_mem s.store (deliveredRow now ackID x) ⟨x, hx, rfl⟩
  have hmap : s.store.rows.map (fun r =>
        if r.MessageID == (deliveredRow now ackID x).MessageID then deliveredRow now ackID x else r) =
      s.store.rows.map (fun y =>
        if y.MessageID == x.MessageID then deliveredRow now ackID y else y) := by
    apply List.map_congr_left
    intro y hy
    by_cases h : y.MessageID = x.MessageID
    · have : y = x := List.inj_on_of_nodup_map hk hy hx h
      subst this
      simp [deliveredRow]
    · simp [h, deliveredRow]
  rw [hmap] at hset
  simp only [MessageStatusStore.Deliver, DatastoreMessageStatus.FindByMessageID, hf, hst, if_false]
  show s.SaveStatus (deliveredRow now ackID x) = _
  unfold MessageStatusStore.SaveStatus
  rw [hset]

theorem MessageStatusStore.deliver_error (s : MessageStatusStore) (now : Int) (msgID ackID : String)
    (err : Error) (h : (s.Deliver now msgID ackID).1 = some err) :
    err = ErrNotFoundEntry ∨ err = ErrAlreadyReadMessage := by
  unfold MessageStatusStore.Deliver at h
  cases hf : s.store.FindByMessageID msgID with
  | error e =>
    rw [hf] at h
    exact Or.inl (Option.some.inj h).symm
  | ok ms =>
    simp only [hf] at h
    by_cases hst : ms.AckState = stateAck
    · rw [if_pos hst] at h
      exact Or.inr (Option.some.inj h).symm
    · rw [if_neg hst] at h
      unfold MessageStatusStore.SaveStatus DatastoreMessageStatus.Set at h
      split at h <;> cases h

theorem pullLoop_error (now : Int) (mk : Nat → String) (s : MessageStatusStore)
    (msgs : List Message) (i : Nat) (acc : List PullMessage) (err : Error)
    (h : (pullLoop now mk s msgs i acc).1 = .error err) :
    err = ErrNotFoundEntry ∨ err = ErrAlreadyReadMessage := by
  induction msgs generalizing s i acc with
  | nil => simp only [pullLoop] at h; cases h
  | cons m rest ih =>
    rcases hd : s.Deliver now m.ID (mk i) with ⟨e, s1⟩
    cases e with
    | none =>
      simp only [pullLoop, hd] at h
      exact ih _ _ _ h
    | some e =>
      simp only [pullLoop, hd, Except.error.injEq] at h
      subst h
      exact MessageStatusStore.deliver_error s now m.ID (mk i) e (by rw [hd])

theorem pullLoop_ok_out (now : Int) (mk : Nat → String) (s : MessageStatusStore)
    (msgs : List Message) (i : Nat) (acc out : List PullMessage)
    (h : (pullLoop now mk s msgs i acc).1 = .ok out) :
    out = acc ++ (msgs.enumFrom i).map (fun p => { AckID := mk p.1, Message := p.2 }) := by
  induction msgs generalizing s i acc with
  | nil =>
    simp only [pullLoop, Except.ok.injEq] at h
    simp [h]
  | cons m rest ih =>
    rcases hd : s.Deliver now m.ID (mk i) with ⟨e, s1⟩
    cases e with
    | none =>
      simp only [pullLoop, hd] at h
      rw [ih _ _ _ h]
      simp [List.enumFrom_cons]
    | some e =>
      simp only [pullLoop, hd] at h
      cases h

theorem pulledRow_nil (now : Int) (mk : Nat → String) (r : MessageStatus) :
    pulledRow now mk [] r = r := rfl

theorem pulledRow_key (now : Int) (mk : Nat → String) (pairs : List (Nat × Message))
    (r : MessageStatus) : (pulledRow now mk pairs r).MessageID = r.MessageID := by
  unfold pulledRow
  split <;> rfl

theorem pulledRow_of_not_mem (now : Int) (mk : Nat → String) (pairs : List (Nat × Message))
    (r : MessageStatus) (h : ∀ p ∈ pairs, p.2.ID ≠ r.MessageID) :
    pulledRow now mk pairs r = r := by
  have hn : pairs.find? (fun p => p.2.ID == r.MessageID) = none := by
    rw [List.find?_eq_none]
    intro p hp
    simpa using h p hp
  simp only [pulledRow, hn]

/-- A pull loop over messages with pairwise distinct IDs, each the key of a
stored row that is not acked, delivers all of them: the `j`-th under the
`j`-th minted ackID. -/
theorem pullLoop_spec (now : Int) (mk : Nat → String) (s : MessageStatusStore)
    (msgs : List Message) (i : Nat) (acc : List PullMessage)
    (hk : (s.store.rows.map (fun r => r.MessageID)).Nodup)
    (hn : (msgs.map (fun m => m.ID)).Nodup)
    (hm : ∀ m ∈ msgs, ∃ x ∈ s.store.rows, x.MessageID = m.ID ∧ x.AckState ≠ stateAck) :
    pullLoop now mk s msgs i acc =
      (.ok (acc ++ (msgs.enumFrom i).map (fun p => { AckID := mk p.1, Message := p.2 })),
        { s with store := { s.store with
            rows := s.store.rows.map (pulledRow now mk (msgs.enumFrom i)) } }) := by
  induction msgs generalizing s i acc with
  | nil =>
    have : s.store.rows.map (pulledRow now mk []) = s.store.rows := by
      rw [List.map_congr_left (fun r _ => pulledRow_nil now mk r), List.map_id']
    simp only [pullLoop, List.enumFrom_nil, List.map_nil, List.append_nil, this]
  | cons m rest ih =>
    obtain ⟨x, hx, hxk, hxs⟩ := hm m (List.mem_cons_self _ _)
    have hd := MessageStatusStore.deliver_ok s now (mk i) hk x hx hxs
    rw [hxk] at hd
    simp only [pullLoop, hd]
    have hn2 : (rest.map (fun m => m.ID)).Nodup := (List.nodup_cons.mp hn).2
    have hnot : ∀ p ∈ rest.enumFrom (i + 1), p.2.ID ≠ m.ID := by
      intro p hp hc
      exact (List.nodup_cons.mp hn).1
        (List.mem_map.mpr ⟨p.2, List.snd_mem_of_mem_enumFrom hp, hc⟩)
    rw [ih _ (i + 1) _ ?_ hn2 ?_]
    · simp only [List.enumFrom_cons, List.map_cons, List.append_assoc, List.singleton_append,
        List.map_map]
      congr 3
      apply List.map_congr_left
      intro y _
      by_cases hy : y.MessageID = m.ID
      · have h1 : (m.ID == y.MessageID) = true := by simp [hy]
        have h2 : (y.MessageID == m.ID) = true := by simp [hy]
        simp only [Function.comp, h2, if_true]
        rw [pulledRow_of_not_mem now mk _ _ (fun p hp => by
          show p.2.ID ≠ y.MessageID
          rw [hy]; exact hnot p hp)]
        simp only [pulledRow, List.find?_cons, h1]
      · have h1 : (m.ID == y.MessageID) = false := by simpa using fun h => hy h.symm
        have h2 : (y.MessageID == m.ID) = false := by simpa using hy
        simp only [Function.comp, h2, Bool.false_eq_true, if_false]
        simp only [pulledRow, List.find?_cons, h1]
    · show (List.map (fun r : MessageStatus => r.MessageID) (s.store.rows.map _)).Nodup
      rw [List.map_map]
      have : ((fun r : MessageStatus => r.MessageID) ∘ fun y =>
          if y.MessageID == m.ID then deliveredRow now (mk i) y else y) =
          fun r => r.MessageID := by
        funext y
        simp only [Function.comp]
        split <;> rfl
      rw [this]
      exact hk
    · intro m2 hm2
      obtain ⟨x2, hx2, hx2k, hx2s⟩ := hm m2 (List.mem_cons_of_mem _ hm2)
      refine ⟨_, List.mem_map_of_mem _ hx2, ?_, ?_⟩
      · split <;> exact hx2k
      · split
        · simp [deliveredRow, stateDeliver, stateAck]
        · exact hx2s

/-! ## Pull -/

theorem MessageStatus.not_readable_of_ack (m : MessageStatus) (now : Int)
    (h : m.AckState = stateAck) : m.Readable now = false := by
  simp [MessageStatus.Readable, h]

theorem collectReadable_of_length_le (g : DatastoreMessage) (now : Int)
    (rows : List MessageStatus) (n m : Nat) (hn : rows.length ≤ n) (hm : rows.length ≤ m) :
    collectReadable g now rows n = collectReadable g now rows m := by
  induction rows generalizing n m with
  | nil => cases n <;> cases m <;> rfl
  | cons r rest ih =>
    cases n with
    | zero => simp at hn
    | succ n =>
      cases m with
      | zero => simp at hm
      | succ m =>
        simp only [List.length_cons, Nat.add_le_add_iff_right] at hn hm
        by_cases hr : r.Readable now = true
        · simp only [collectReadable, hr, if_true, ih n m hn hm]
        · simp only [collectReadable, hr, Bool.false_eq_true, if_false]
          exact ih (n + 1) (m + 1) (by omega) (by omega)

theorem collectReadable_clamp (g : DatastoreMessage) (now : Int) (rows : List MessageStatus)
    (size : Int) :
    collectReadable g now rows
        (if (rows.length : Int) < size then (rows.length : Int) else size).toNat =
      collectReadable g now rows size.toNat := by
  by_cases h : (rows.length : Int) < size
  · rw [if_pos h, Int.toNat_ofNat]
    exact collectReadable_of_length_le g now rows _ _ (le_refl _) (by omega)
  · rw [if_neg h]

/-- The method `GetRangeMessage` without the clamp of `size` to the store
length, which does not change what the scan collects. -/
theorem MessageStatusStore.getRangeMessage_eq (s : MessageStatusStore) (g : DatastoreMessage)
    (now : Int) (size : Int) :
    s.GetRangeMessage g now size =
      if s.store.rows.length = 0 then .error ErrEmptyMessage
      else
        match collectReadable g now s.store.rows size.toNat with
        | .error err => .error (Wrap err "failed to get range messages")
        | .ok msgs =>
          if msgs.length = 0 then .error ErrEmptyMessage else .ok (sortByMessageID msgs) := by
  unfold MessageStatusStore.GetRangeMessage
  simp only [DatastoreMessageStatus.Size, DatastoreMessageStatus.CollectByReadableMessage,
    collectReadable_clamp]
  by_cases h0 : s.store.rows.length = 0
  · simp [h0]
  · have : ¬ (s.store.rows.length : Int) = 0 := by omega
    simp only [h0, this, if_false]

theorem collectReadable_zero (g : DatastoreMessage) (now : Int) (rows : List MessageStatus) :
    collectReadable g now rows 0 = .ok [] := by
  cases rows <;> rfl

theorem MessageStatusStore.getRangeMessage_nonpos (s : MessageStatusStore) (g : DatastoreMessage)
    (now : Int) (size : Int) (h : size ≤ 0) :
    s.GetRangeMessage g now size = .error ErrEmptyMessage := by
  rw [MessageStatusStore.getRangeMessage_eq]
  have : size.toNat = 0 := by omega
  rw [this, collectReadable_zero]
  simp

theorem MessageStatusStore.getRangeMessage_no_readable (s : MessageStatusStore)
    (g : DatastoreMessage) (now : Int) (size : Int)
    (h : s.store.rows.filter (fun r => r.Readable now) = []) :
    s.GetRangeMessage g now size = .error ErrEmptyMessage := by
  rw [MessageStatusStore.getRangeMessage_eq]
  obtain ⟨msgs, hc⟩ := collectReadable_total g now s.store.rows size.toNat (by simp [h])
  have h1 := (collectReadable_ok g now _ _ msgs hc).1
  rw [h] at h1
  have : msgs = [] := by simpa using h1
  subst this
  rw [hc]
  simp

theorem MessageStatusStore.getRangeMessage_readable (s : MessageStatusStore)
    (g : DatastoreMessage) (now : Int) (size : Int) (hN : 1 ≤ size)
    (h : s.store.rows.filter (fun r => r.Readable now) ≠ []) :
    (∃ err msg, s.GetRangeMessage g now size = .error (Wrap err msg)) ∨
      ∃ raw, collectReadable g now s.store.rows size.toNat = .ok raw ∧ raw ≠ [] ∧
        s.GetRangeMessage g now size = .ok (sortByMessageID raw) := by
  rw [MessageStatusStore.getRangeMessage_eq]
  have h0 : ¬ s.store.rows.length = 0 := by
    intro hc
    rw [List.length_eq_zero] at hc
    rw [hc] at h
    exact h rfl
  rw [if_neg h0]
  cases hc : collectReadable g now s.store.rows size.toNat with
  | error e => exact Or.inl ⟨e, _, rfl⟩
  | ok raw =>
    right
    have h1 := (collectReadable_ok g now _ _ raw hc).1
    have hne : raw ≠ [] := by
      intro he
      rw [he] at h1
      have h2 : ((s.store.rows.filter (fun r => r.Readable now)).take size.toNat).length = 0 := by
        have := congrArg List.length h1
        simpa using this.symm
      rw [List.length_take] at h2
      have h3 : 0 < (s.store.rows.filter (fun r => r.Readable now)).length :=
        List.length_pos.mpr h
      omega
    refine ⟨raw, rfl, hne, ?_⟩
    have : ¬ raw.length = 0 := fun hl => hne (List.length_eq_zero.mp hl)
    simp only [this, if_false]

/-- With one row per messageID, a pull whose `GetRangeMessage` returns `msgs`
delivers each of them: the `j`-th message under the `j`-th minted ackID. -/
theorem Subscription.pull_spec (w : World) (now : Int) (mk : Nat → String) (size : Int)
    (msgs : List Message) (hk : w.rowKeysNodup)
    (hg : w.sub.MessageStatus.GetRangeMessage w.globalMessage now size = .ok msgs) :
    Subscription.Pull w now mk size =
      (.ok ((msgs.enumFrom 0).map (fun p => { AckID := mk p.1, Message := p.2 })),
        w.setStatus { w.sub.MessageStatus with store := { w.sub.MessageStatus.store with
          rows := w.rows.map (pulledRow now mk (msgs.enumFrom 0)) } }) := by
  obtain ⟨raw, hsort, _, hids, _⟩ := MessageStatusStore.getRangeMessage_ok _ _ _ _ _ hg
  have hperm : (msgs.map (fun m => m.ID)).Perm (raw.map (fun m => m.ID)) := by
    rw [hsort]
    exact (sortByMessageID_perm raw).map _
  have hsub : (raw.map (fun m => m.ID)).Sublist (w.rows.map (fun r => r.MessageID)) := by
    rw [hids]
    exact ((List.take_sublist _ _).trans (List.filter_sublist _)).map _
  have hn : (msgs.map (fun m => m.ID)).Nodup := hperm.nodup_iff.mpr (hsub.nodup hk)
  have hm : ∀ m ∈ msgs, ∃ x ∈ w.sub.MessageStatus.store.rows,
      x.MessageID = m.ID ∧ x.AckState ≠ stateAck := by
    intro m hmem
    have h1 : m.ID ∈ raw.map (fun m => m.ID) := hperm.subset (List.mem_map_of_mem _ hmem)
    rw [hids] at h1
    obtain ⟨x, hx, hxk⟩ := List.mem_map.mp h1
    have hx2 := List.mem_filter.mp (List.mem_of_mem_take hx)
    refine ⟨x, hx2.1, hxk, fun hc => ?_⟩
    have := MessageStatus.not_readable_of_ack x now hc
    simp [this] at hx2
  have hl := pullLoop_spec now mk w.sub.MessageStatus msgs 0 [] hk hn hm
  simp only [Subscription.Pull, hg, hl, List.nil_append]
  rfl

theorem Subscription.pull_ok_out (w : World) (now : Int) (mk : Nat → String) (size : Int)
    (out : List PullMessage) (h : (Subscription.Pull w now mk size).1 = .ok out) :
    ∃ msgs, w.sub.MessageStatus.GetRangeMessage w.globalMessage now size = .ok msgs ∧
      out = (msgs.enumFrom 0).map (fun p => { AckID := mk p.1, Message := p.2 }) := by
  unfold Subscription.Pull at h
  cases hg : w.sub.MessageStatus.GetRangeMessage w.globalMessage now size with
  | error e => rw [hg] at h; cases h
  | ok msgs =>
    rw [hg] at h
    have := pullLoop_ok_out now mk w.sub.MessageStatus msgs 0 [] out h
    exact ⟨msgs, rfl, by simpa using this⟩

theorem map_message_enumFrom (mk : Nat → String) (msgs : List Message) (i : Nat) :
    ((msgs.enumFrom i).map (fun p => ({ AckID := mk p.1, Message := p.2 } : PullMessage))).map
      (fun p => p.Message) = msgs := by
  induction msgs generalizing i with
  | nil => rfl
  | cons m rest ih => simp [List.enumFrom_cons, ih]

theorem eq_of_map_ID_eq (g : DatastoreMessage) (l1 l2 : List Message)
    (h : l1.map (fun m => m.ID) = l2.map (fun m => m.ID))
    (h1 : ∀ m ∈ l1, g.Get m.ID = .ok m) (h2 : ∀ m ∈ l2, g.Get m.ID = .ok m) : l1 = l2 := by
  induction l1 generalizing l2 with
  | nil =>
    cases l2 with
    | nil => rfl
    | cons b t => simp at h
  | cons a t ih =>
    cases l2 with
    | nil => simp at h
    | cons b t2 =>
      simp only [List.map_cons, List.cons.injEq] at h
      have ha := h1 a (List.mem_cons_self _ _)
      have hb := h2 b (List.mem_cons_self _ _)
      rw [h.1, hb] at ha
      have hab : b = a := by injection ha
      rw [hab, ih t2 h.2 (fun m hm => h1 m (List.mem_cons_of_mem _ hm))
        (fun m hm => h2 m (List.mem_cons_of_mem _ hm))]

/-- The messages of a successful pull: the sort of the Messages `raw` loaded
for the first `N` readable rows of the scan. -/
theorem Subscription.pull_ok_raw (w : World) (now : Int) (mk : Nat → String) (N : Int)
    (out : List PullMessage) (h : (Subscription.Pull w now mk N).1 = .ok out) :
    ∃ raw, out.map (fun p => p.Message) = sortByMessageID raw ∧
      raw.map (fun m => m.ID) =
        ((w.readableRows now).take N.toNat).map (fun r => r.MessageID) ∧
      ∀ m ∈ raw, w.globalMessage.Get m.ID = .ok m := by
  obtain ⟨msgs, hg, hout⟩ := Subscription.pull_ok_out w now mk N out h
  obtain ⟨raw, hsort, _, hids, hget⟩ := MessageStatusStore.getRangeMessage_ok _ _ _ _ _ hg
  refine ⟨raw, ?_, hids, hget⟩
  rw [hout, map_message_enumFrom, hsort]

/-- C2, as the code has it: a successful Pull(N) returns exactly min(|R|, N)
messages, in ascending messageID order; they are the stored Messages of the
first min(|R|, N) readable rows in the order of the scan. When N is at least
|R| these are all of R, and then the result is the same for every scan order:
any successful pull on the same Message repository whose readable rows are a
reordering of R returns the same messages. -/
theorem pull_returns_first_readable_sorted (w : World) (now : Int) (mk : Nat → String)
    (N : Int) (out : List PullMessage)
    (h : (Subscription.Pull w now mk N).1 = .ok out) :
    out.length = min (w.readableRows now).length N.toNat ∧
    (out.map (fun p => p.Message.ID)).Sorted (fun a b => a ≤ b) ∧
    (out.map (fun p => p.Message.ID)).Perm
      (((w.readableRows now).take N.toNat).map (fun r => r.MessageID)) ∧
    (∀ p ∈ out, w.globalMessage.Get p.Message.ID = .ok p.Message) ∧
    ((w.readableRows now).length ≤ N.toNat →
      ∀ (w2 : World) (mk2 : Nat → String) (out2 : List PullMessage),
        w2.globalMessage = w.globalMessage →
        (w2.readableRows now).Perm (w.readableRows now) →
        (Subscription.Pull w2 now mk2 N).1 = .ok out2 →
        out2.map (fun p => p.Message) = out.map (fun p => p.Message)) := by
  obtain ⟨raw, hmsg, hids, hget⟩ := Subscription.pull_ok_raw w now mk N out h
  have hidmap : out.map (fun p => p.Message.ID) = (sortByMessageID raw).map (fun m => m.ID) := by
    rw [← hmsg, List.map_map]
    rfl
  have hperm : (out.map (fun p => p.Message.ID)).Perm
      (((w.readableRows now).take N.toNat).map (fun r => r.MessageID)) := by
    rw [hidmap, ← hids]
    exact (sortByMessageID_perm raw).map _
  have hsorted : (out.map (fun p => p.Message.ID)).Sorted (fun a b => a ≤ b) := by
    rw [hidmap]
    exact sortByMessageID_sorted raw
  have hgetout : ∀ m ∈ out.map (fun p => p.Message), w.globalMessage.Get m.ID = .ok m := by
    intro m hm
    rw [hmsg] at hm
    exact hget m ((sortByMessageID_perm raw).subset hm)
  refine ⟨?_, hsorted, hperm, ?_, ?_⟩
  · have := hperm.length_eq
    simpa [List.length_take, Nat.min_comm] using this
  · intro p hp
    exact hgetout p.Message (List.mem_map_of_mem _ hp)
  · intro hlen w2 mk2 out2 hg2 hp2 h2
    obtain ⟨raw2, hmsg2, hids2, hget2⟩ := Subscription.pull_ok_raw w2 now mk2 N out2 h2
    rw [hg2] at hget2
    have hlen2 : (w2.readableRows now).length ≤ N.toNat := by rw [hp2.length_eq]; exact hlen
    rw [List.take_of_length_le hlen2] at hids2
    rw [List.take_of_length_le hlen] at hperm
    have hidmap2 : out2.map (fun p => p.Message.ID) =
        (sortByMessageID raw2).map (fun m => m.ID) := by
      rw [← hmsg2, List.map_map]
      rfl
    have hperm2 : (out2.map (fun p => p.Message.ID)).Perm
        ((w.readableRows now).map (fun r => r.MessageID)) := by
      rw [hidmap2]
      refine ((sortByMessageID_perm raw2).map _).trans ?_
      rw [hids2]
      exact hp2.map _
    have hsorted2 : (out2.map (fun p => p.Message.ID)).Sorted (fun a b => a ≤ b) := by
      rw [hidmap2]
      exact sortByMessageID_sorted raw2
    have hideq : out2.map (fun p => p.Message.ID) = out.map (fun p => p.Message.ID) :=
      List.eq_of_perm_of_sorted (hperm2.trans hperm.symm) hsorted2 hsorted
    have hgetout2 : ∀ m ∈ out2.map (fun p => p.Message), w.globalMessage.Get m.ID = .ok m := by
      intro m hm
      rw [hmsg2] at hm
      exact hget2 m ((sortByMessageID_perm raw2).subset hm)
    apply eq_of_map_ID_eq w.globalMessage _ _ _ hgetout2 hgetout
    simpa [List.map_map] using hideq

/-- Witness of C2 as amended: the pull of two messages from the sample fan-out
state succeeds and returns two messages. -/
theorem pull_returns_first_readable_sorted_witness :
    (Subscription.Pull sampleFanout 0 sampleAckID 2).1 =
        .ok [{ AckID := "b0", Message := sampleMessage "m1" ["s1"] },
             { AckID := "b1", Message := sampleMessage "m3" ["s1"] }] ∧
      ([{ AckID := "b0", Message := sampleMessage "m1" ["s1"] },
        { AckID := "b1", Message := sampleMessage "m3" ["s1"] }] : List PullMessage).length =
        min (sampleFanout.readableRows 0).length (2 : Int).toNat :=
  ⟨rfl, (pull_returns_first_readable_sorted sampleFanout 0 sampleAckID 2 _ rfl).1⟩

/-- C2 fails as stated: with `m1`, `m2`, `m3` all readable and scanned in the
order `m3`, `m1`, `m2`, Pull(2) returns `m1` and `m3`, not the two smallest
`m1` and `m2`; scanned in the order `m1`, `m2`, `m3` the same rows give `m1`
and `m2`. -/
theorem pull_not_smallest_ids :
    (sampleFanout.readableRows 0).map (fun r => r.MessageID) = ["m3", "m1", "m2"] ∧
    "m2".data < "m3".data ∧
    (Subscription.Pull sampleFanout 0 sampleAckID 2).1 =
      .ok [{ AckID := "b0", Message := sampleMessage "m1" ["s1"] },
           { AckID := "b1", Message := sampleMessage "m3" ["s1"] }] ∧
    (Subscription.Pull
        (sampleWorld
          [newMessageStatus "m1" "s1" (10 * Second), newMessageStatus "m2" "s1" (10 * Second),
            newMessageStatus "m3" "s1" (10 * Second)]
          sampleFanout.globalMessage.store) 0 sampleAckID 2).1 =
      .ok [{ AckID := "b0", Message := sampleMessage "m1" ["s1"] },
           { AckID := "b1", Message := sampleMessage "m2" ["s1", "s2"] }] :=
  ⟨by decide, by decide, rfl, rfl⟩

theorem Subscription.pull_nonpos (w : World) (now : Int) (mk : Nat → String) (N : Int)
    (h : N ≤ 0) : Subscription.Pull w now mk N = (.error ErrEmptyMessage, w) := by
  simp only [Subscription.Pull, MessageStatusStore.getRangeMessage_nonpos _ _ _ _ h]

/-- C10, as the code has it: for a requested size N of at least 1, Pull fails
with `ErrEmptyMessage` exactly when the subscription has no readable row; when
a row is readable, the rows are stored one per messageID and the Messages of
the readable rows are stored, Pull succeeds and returns min(|R|, N) messages,
at least one and at most N. -/
theorem pull_empty_iff_no_readable (w : World) (now : Int) (mk : Nat → String) (N : Int)
    (hN : 1 ≤ N) :
    ((Subscription.Pull w now mk N).1 = .error ErrEmptyMessage ↔ w.readableRows now = []) ∧
    (w.readableRows now ≠ [] → w.rowKeysNodup →
      (∀ r ∈ w.readableRows now, ∃ m, w.globalMessage.Get r.MessageID = .ok m) →
      ∃ out, (Subscription.Pull w now mk N).1 = .ok out ∧
        out.length = min (w.readableRows now).length N.toNat ∧
        1 ≤ out.length ∧ (out.length : Int) ≤ N) := by
  constructor
  · constructor
    · intro h
      by_contra hne
      rcases MessageStatusStore.getRangeMessage_readable w.sub.MessageStatus w.globalMessage
        now N hN hne with ⟨e, msg, hg⟩ | ⟨raw, _, _, hg⟩
      · simp only [Subscription.Pull, hg] at h
        cases h
      · simp only [Subscription.Pull, hg] at h
        rcases pullLoop_error now mk _ _ _ _ _ h with h1 | h1 <;> cases h1
    · intro h
      simp only [Subscription.Pull,
        MessageStatusStore.getRangeMessage_no_readable _ w.globalMessage now N h]
  · intro hne hk hstored
    rcases MessageStatusStore.getRangeMessage_readable w.sub.MessageStatus w.globalMessage
      now N hN hne with ⟨e, msg, hg⟩ | ⟨raw, hc, _, hg⟩
    · exfalso
      obtain ⟨msgs, hc⟩ := collectReadable_total w.globalMessage now w.sub.MessageStatus.store.rows
        N.toNat (fun r hr => hstored r (List.mem_of_mem_take hr))
      rw [MessageStatusStore.getRangeMessage_eq, hc] at hg
      by_cases h0 : w.sub.MessageStatus.store.rows.length = 0
      · rw [if_pos h0] at hg
        cases hg
      · rw [if_neg h0] at hg
        by_cases hl : msgs.length = 0
        · simp only [hl, if_true] at hg
          cases hg
        · simp only [hl, if_false] at hg
          cases hg
    · have hp := Subscription.pull_spec w now mk N _ hk hg
      refine ⟨_, by rw [hp], ?_⟩
      have hlen : ((sortByMessageID raw).enumFrom 0).length =
          min (w.readableRows now).length N.toNat := by
        rw [List.enumFrom_length, (sortByMessageID_perm raw).length_eq]
        have := congrArg List.length (collectReadable_ok _ _ _ _ raw hc).1
        simpa [List.length_take, Nat.min_comm, World.readableRows, World.rows] using this
      have hpos : 0 < (w.readableRows now).length := List.length_pos.mpr hne
      rw [List.length_map, hlen]
      refine ⟨rfl, ?_, ?_⟩
      · omega
      · omega

/-- Witness of C10 as amended: Pull(1) on the sample fan-out state. -/
theorem pull_empty_iff_no_readable_witness :
    ((Subscription.Pull sampleFanout 0 sampleAckID 1).1 = .error ErrEmptyMessage ↔
      sampleFanout.readableRows 0 = []) :=
  (pull_empty_iff_no_readable sampleFanout 0 sampleAckID 1 (by decide)).1

/-- C10 fails as stated: with readable rows present, Pull(0) does not succeed
with the empty list; it fails with `ErrEmptyMessage`. -/
theorem pull_zero_fails_with_readable_rows :
    sampleFanout.readableRows 0 ≠ [] ∧
    Subscription.Pull sampleFanout 0 sampleAckID 0 = (.error ErrEmptyMessage, sampleFanout) :=
  ⟨by decide, rfl⟩

/-! ## Redelivery -/

theorem find?_of_mem_of_nodup {α β : Type} [DecidableEq β] (f : α → β) (l : List α)
    (hn : (l.map f).Nodup) (x : α) (hx : x ∈ l) :
    l.find? (fun y => f y == f x) = some x := by
  have hany : l.any (fun y => f y == f x) = true :=
    List.any_eq_true.mpr ⟨x, hx, by simp⟩
  obtain ⟨y, hy⟩ := find?_isSome_of_any _ _ hany
  have hy1 := List.mem_of_find?_eq_some hy
  have hy2 : f y = f x := by simpa using List.find?_some hy
  rw [hy, List.inj_on_of_nodup_map hn hy1 hx hy2]

theorem find?_map_of_key {α β : Type} [DecidableEq β] (key : α → β) (F : α → α)
    (hF : ∀ y, key (F y) = key y) (k : β) (l : List α) :
    (l.map F).find? (fun y => key y == k) = (l.find? (fun y => key y == k)).map F := by
  induction l with
  | nil => rfl
  | cons a t ih =>
    by_cases h : key a = k
    · simp [List.find?_cons, hF, h]
    · simp only [List.map_cons, List.find?_cons, hF]
      have : (key a == k) = false := by simpa using h
      simp only [this, ih]

theorem MessageStatusStore.ack_not_found (w : World) (ackID : String)
    (h : ∀ r ∈ w.rows, r.AckID ≠ ackID) :
    MessageStatusStore.Ack w ackID = (some ErrNotFoundEntry, w) := by
  have hf := DatastoreMessageStatus.findByAckID_error w.sub.MessageStatus.store ackID h
  simp only [MessageStatusStore.Ack, hf]

theorem Subscription.modifyAckDeadline_not_found (w : World) (ackID : String) (timeout : Int)
    (h : ∀ r ∈ w.rows, r.AckID ≠ ackID) :
    Subscription.ModifyAckDeadline w ackID timeout = (some ErrNotFoundEntry, w) := by
  have hf := DatastoreMessageStatus.findByAckID_error w.sub.MessageStatus.store ackID h
  simp only [Subscription.ModifyAckDeadline, MessageStatusStore.FindByAckID, hf]

/-- C9: let `r` be a row in state Deliver, readable, whose ackID no other row
carries, in a store with one row per messageID, and let a successful pull,
minting ackIDs that no row carries, return the Message of `r` under ackID `B`.
Then `B` differs from the old ackID, the row stored under the messageID of `r`
is `r` in state Deliver carrying `B` and delivered at `now`, no row carries the
old ackID any more: Ack and ModifyAckDeadline with it fail with
`ErrNotFoundEntry` and change nothing, and Ack with `B` succeeds. -/
theorem redelivery_invalidates_old_ackID (w : World) (now : Int) (mk : Nat → String) (N : Int)
    (r : MessageStatus) (out : List PullMessage) (p : PullMessage)
    (hk : w.rowKeysNodup)
    (hr : r ∈ w.rows) (_hst : r.AckState = stateDeliver) (_hread : r.Readable now = true)
    (huniq : ∀ x ∈ w.rows, x.AckID = r.AckID → x = r)
    (hfresh : ∀ i, ∀ x ∈ w.rows, x.AckID ≠ mk i)
    (hpull : (Subscription.Pull w now mk N).1 = .ok out)
    (hp : p ∈ out) (hpid : p.Message.ID = r.MessageID) :
    p.AckID ≠ r.AckID ∧
    (Subscription.Pull w now mk N).2.sub.MessageStatus.FindByMessageID r.MessageID =
      .ok { r with AckState := stateDeliver, AckID := p.AckID, DeliveredAt := now } ∧
    (∀ x ∈ (Subscription.Pull w now mk N).2.rows, x.AckID ≠ r.AckID) ∧
    MessageStatusStore.Ack (Subscription.Pull w now mk N).2 r.AckID =
      (some ErrNotFoundEntry, (Subscription.Pull w now mk N).2) ∧
    (∀ t, Subscription.ModifyAckDeadline (Subscription.Pull w now mk N).2 r.AckID t =
      (some ErrNotFoundEntry, (Subscription.Pull w now mk N).2)) ∧
    (MessageStatusStore.Ack (Subscription.Pull w now mk N).2 p.AckID).1 = none := by
  obtain ⟨msgs, hg, hout⟩ := Subscription.pull_ok_out w now mk N out hpull
  obtain ⟨raw, hsort, _, hids, hget⟩ := MessageStatusStore.getRangeMessage_ok _ _ _ _ _ hg
  have hpermm : msgs.Perm raw := by rw [hsort]; exact sortByMessageID_perm raw
  have hsub : (raw.map (fun m => m.ID)).Sublist (w.rows.map (fun r => r.MessageID)) := by
    rw [hids]
    exact ((List.take_sublist _ _).trans (List.filter_sublist _)).map _
  have hn : (msgs.map (fun m => m.ID)).Nodup := (hpermm.map _).nodup_iff.mpr (hsub.nodup hk)
  have hnp : ((msgs.enumFrom 0).map (fun q => q.2.ID)).Nodup := by
    have : (msgs.enumFrom 0).map (fun q => q.2.ID) = msgs.map (fun m => m.ID) := by
      rw [← List.enumFrom_map_snd 0 msgs, List.map_map, List.enumFrom_map_snd]
      rfl
    rw [this]; exact hn
  rw [Subscription.pull_spec w now mk N msgs hk hg]
  rw [hout] at hp
  obtain ⟨q, hq, hqp⟩ := List.mem_map.mp hp
  have hqid : q.2.ID = r.MessageID := by rw [← hpid, ← hqp]
  have hqack : p.AckID = mk q.1 := by rw [← hqp]
  have hfind : (msgs.enumFrom 0).find? (fun q2 => q2.2.ID == r.MessageID) = some q := by
    rw [← hqid]
    exact find?_of_mem_of_nodup (fun q2 : Nat × Message => q2.2.ID) _ hnp q hq
  have hFr : pulledRow now mk (msgs.enumFrom 0) r = deliveredRow now p.AckID r := by
    simp only [pulledRow, hfind, hqack]
  have hne : p.AckID ≠ r.AckID := by
    rw [hqack]; exact fun hc => hfresh q.1 r hr hc.symm
  have hrows : ∀ x ∈ w.rows.map (pulledRow now mk (msgs.enumFrom 0)), x.AckID ≠ r.AckID := by
    intro x hx hc
    obtain ⟨y, hy, hyx⟩ := List.mem_map.mp hx
    cases hf : (msgs.enumFrom 0).find? (fun q2 => q2.2.ID == y.MessageID) with
    | none =>
      have hxy : x = y := by rw [← hyx]; simp only [pulledRow, hf]
      rw [hxy] at hc
      have := huniq y hy hc
      rw [this, hfind] at hf
      cases hf
    | some q2 =>
      have hxa : x.AckID = mk q2.1 := by rw [← hyx]; simp only [pulledRow, hf, deliveredRow]
      rw [hxa] at hc
      exact hfresh q2.1 r hr hc.symm
  have hmemB : deliveredRow now p.AckID r ∈ w.rows.map (pulledRow now mk (msgs.enumFrom 0)) := by
    rw [← hFr]; exact List.mem_map_of_mem _ hr
  refine ⟨hne, ?_, hrows, MessageStatusStore.ack_not_found _ _ hrows,
    fun t => Subscription.modifyAckDeadline_not_found _ _ t hrows, ?_⟩
  · show DatastoreMessageStatus.FindByMessageID ⟨w.rows.map _⟩ r.MessageID = _
    unfold DatastoreMessageStatus.FindByMessageID
    have h1 := find?_map_of_key (fun y : MessageStatus => y.MessageID)
      (pulledRow now mk (msgs.enumFrom 0)) (pulledRow_key now mk _) r.MessageID w.rows
    have h2 := DatastoreMessageStatus.find_of_mem w.rows hk r hr
    beta_reduce at h1
    rw [h1, h2]
    simp only [Option.map, hFr]
    rfl
  · have hany : (w.rows.map (pulledRow now mk (msgs.enumFrom 0))).any
        (fun x => x.AckID == p.AckID) = true :=
      List.any_eq_true.mpr ⟨_, hmemB, by simp [deliveredRow]⟩
    obtain ⟨ms, hms⟩ := find?_isSome_of_any _ _ hany
    have hms1 := List.mem_of_find?_eq_some hms
    have hms2 : ms.AckID = p.AckID := by simpa using List.find?_some hms
    obtain ⟨y, hy, hyx⟩ := List.mem_map.mp hms1
    have hgetms : ∃ m, w.globalMessage.Get ms.MessageID = .ok m := by
      cases hf : (msgs.enumFrom 0).find? (fun q2 => q2.2.ID == y.MessageID) with
      | none =>
        exfalso
        have hxy : ms = y := by rw [← hyx]; simp only [pulledRow, hf]
        rw [hxy, hqack] at hms2
        exact hfresh q.1 y hy hms2
      | some q2 =>
        have hq2 := List.mem_of_find?_eq_some hf
        have hq2id : q2.2.ID = y.MessageID := by simpa using List.find?_some hf
        have hkey : ms.MessageID = q2.2.ID := by
          rw [← hyx, pulledRow_key, hq2id]
        refine ⟨q2.2, ?_⟩
        rw [hkey]
        exact hget _ (hpermm.subset (List.snd_mem_of_mem_enumFrom hq2))
    obtain ⟨m, hm⟩ := hgetms
    have hfa : (World.setStatus w { w.sub.MessageStatus with store :=
        { w.sub.MessageStatus.store with
          rows := w.rows.map (pulledRow now mk (msgs.enumFrom 0)) } }).sub.MessageStatus.FindByAckID
        p.AckID = .ok ms := by
      show DatastoreMessageStatus.FindByAckID ⟨w.rows.map _⟩ p.AckID = _
      unfold DatastoreMessageStatus.FindByAckID
      simp only [hms]
    rw [MessageStatusStore.ack_ok _ p.AckID ms m hfa hm]

theorem sampleAckID_head (i : Nat) : ∃ s, (sampleAckID i).data = 'b' :: s :=
  ⟨(toString i).data, by simp [sampleAckID]⟩

/-- Witness of C9: in the sample state at 11 seconds the row of `m1`,
delivered at 0 under `a1` with a deadline of 10 seconds, is readable; Pull(1)
redelivers it under `b0`, after which Ack with `a1` fails with
`ErrNotFoundEntry`. -/
theorem redelivery_invalidates_old_ackID_witness :
    (Subscription.Pull sampleDeliveredWorld (11 * Second) sampleAckID 1).1 =
        .ok [{ AckID := "b0", Message := sampleMessage "m1" ["s1"] }] ∧
      MessageStatusStore.Ack
          (Subscription.Pull sampleDeliveredWorld (11 * Second) sampleAckID 1).2 "a1" =
        (some ErrNotFoundEntry,
          (Subscription.Pull sampleDeliveredWorld (11 * Second) sampleAckID 1).2) :=
  ⟨rfl,
    (redelivery_invalidates_old_ackID sampleDeliveredWorld (11 * Second) sampleAckID 1
      (sampleDelivered "m1" "a1" (10 * Second) 0)
      [{ AckID := "b0", Message := sampleMessage "m1" ["s1"] }]
      { AckID := "b0", Message := sampleMessage "m1" ["s1"] }
      (by decide) (by decide) (by decide) (by decide) (by decide)
      (by
        intro i x hx hc
        obtain ⟨s, hs⟩ := sampleAckID_head i
        have hx2 : x.AckID = "a1" ∨ x.AckID = "a2" := by
          simp only [World.rows, sampleDeliveredWorld, sampleWorld, List.mem_cons,
            List.mem_singleton, List.not_mem_nil, or_false] at hx
          rcases hx with rfl | rfl
          · exact Or.inl rfl
          · exact Or.inr rfl
        rw [← hc] at hs
        rcases hx2 with h | h <;> rw [h] at hs <;> simp at hs)
      rfl (by decide) rfl).2.2.2.1⟩

/-! ## RegisterMessage -/

theorem DatastoreMessageStatus.find_set_self (d : DatastoreMessageStatus) (ms : MessageStatus) :
    (d.Set ms).2.FindByMessageID ms.MessageID = .ok ms := by
  by_cases h : d.rows.any (fun r => r.MessageID == ms.MessageID) = true
  · obtain ⟨y, hy⟩ := find?_isSome_of_any _ _ h
    simp only [DatastoreMessageStatus.Set, if_pos h, DatastoreMessageStatus.FindByMessageID]
    have hrep := find?_map_replace (fun r : MessageStatus => r.MessageID == ms.MessageID) ms
      (by simp) d.rows
    beta_reduce at hrep
    rw [hrep, hy]
    rfl
  · have hn := find?_eq_none_of_any_false _ _ h
    simp only [DatastoreMessageStatus.Set, if_neg h, DatastoreMessageStatus.FindByMessageID]
    simp [List.find?_append, hn]

/-- When the write of the row does not fail, RegisterMessage persists the row
of the Message for the subscription: state Wait, empty ackID, the default ack
deadline of the subscription. -/
theorem Subscription.registerMessage_persists (s : Subscription) (g : DatastoreSubscription)
    (msg : Message) (saveFault : Option Error) :
    (s.RegisterMessage g msg none saveFault).2.1.MessageStatus.FindByMessageID msg.ID =
      .ok { MessageID := msg.ID, SubscriptionID := s.Name, AckID := "",
            AckDeadline := s.DefaultAckDeadline, AckState := stateWait,
            DeliveredAt := zeroTime } :=
  DatastoreMessageStatus.find_set_self s.MessageStatus.store
    (newMessageStatus msg.ID s.Name s.DefaultAckDeadline)

/-- Whatever error the write of the row fails with, RegisterMessage returns
the result of `Save` alone: with a successful `Save` it returns no error and
the rows of the subscription are as they were. -/
theorem Subscription.registerMessage_drops_error (s : Subscription) (g : DatastoreSubscription)
    (msg : Message) (err : Error) :
    (s.RegisterMessage g msg (some err) none).1 = none ∧
      (s.RegisterMessage g msg (some err) none).2.1 = s := by
  constructor
  · simp only [Subscription.RegisterMessage, Subscription.Save, DatastoreSubscription.Set]
    split <;> rfl
  · rfl

/-- C11: with subscription `s1` holding no row and the write of the row for
`m9` failing, RegisterMessage returns no error although no row for `m9` is
persisted. -/
theorem registerMessage_succeeds_without_row :
    (sampleWorld [] []).sub.MessageStatus.SaveStatusWithFault
        (some (Wrap ErrNotMatchTypeMessage "store write failed"))
        (newMessageStatus "m9" "s1" (10 * Second)) =
      (some (Wrap ErrNotMatchTypeMessage "store write failed"),
        (sampleWorld [] []).sub.MessageStatus) ∧
    (sampleWorld [] []).sub.RegisterMessage { store := [] } (sampleMessage "m9" ["s1"])
        (some (Wrap ErrNotMatchTypeMessage "store write failed")) none =
      (none, (sampleWorld [] []).sub, { store := [(sampleWorld [] []).sub] }) ∧
    ((sampleWorld [] []).sub.RegisterMessage { store := [] } (sampleMessage "m9" ["s1"])
        (some (Wrap ErrNotMatchTypeMessage "store write failed")) none).2.1.MessageStatus.store.rows =
      [] := by
  decide

/-! ## The publish handler -/

theorem publishLoop_of_inOrder {σ : Type} (m : TopicModels σ) (t : Topic) (repos : σ)
    (msgs : List PublishData) (acc ids : List String) (r : σ)
    (h : publishInOrder m t repos msgs = some (ids, r)) :
    publishLoop m t repos msgs acc = (.ok (acc ++ ids), r) ∧ ids.length = msgs.length := by
  induction msgs generalizing repos acc ids with
  | nil =>
    simp only [publishInOrder, Option.some.injEq, Prod.mk.injEq] at h
    obtain ⟨h1, h2⟩ := h
    subst h1 h2
    simp [publishLoop]
  | cons d rest ih =>
    rcases hp : m.Publish repos t d.Data d.Attr with ⟨res, repos1⟩
    cases res with
    | error e => simp only [publishInOrder, hp] at h; cases h
    | ok id =>
      simp only [publishInOrder, hp] at h
      cases hr : publishInOrder m t repos1 rest with
      | none => rw [hr] at h; cases h
      | some p =>
        rw [hr] at h
        simp only [Option.some.injEq, Prod.mk.injEq] at h
        obtain ⟨h1, h2⟩ := h
        obtain ⟨ih1, ih2⟩ := ih repos1 (acc ++ [id]) p.1 (by rw [hr, ← h2])
        subst h1
        constructor
        · simp only [publishLoop, hp, ih1, List.append_assoc, List.singleton_append]
        · simp [ih2]

theorem publishLoop_of_refused {σ : Type} (m : TopicModels σ) (t : Topic) (repos : σ)
    (msgs : List PublishData) (acc : List String)
    (h : publishInOrder m t repos msgs = none) :
    ∃ err r, publishLoop m t repos msgs acc = (.error err, r) := by
  induction msgs generalizing repos acc with
  | nil => simp [publishInOrder] at h
  | cons d rest ih =>
    rcases hp : m.Publish repos t d.Data d.Attr with ⟨res, repos1⟩
    cases res with
    | error e => exact ⟨e, repos1, by simp only [publishLoop, hp]⟩
    | ok id =>
      simp only [publishInOrder, hp] at h
      cases hr : publishInOrder m t repos1 rest with
      | none =>
        obtain ⟨err, r, hl⟩ := ih repos1 (acc ++ [id]) hr
        exact ⟨err, r, by simp only [publishLoop, hp, hl]⟩
      | some p => rw [hr] at h; cases h

/-- C12: for a request that decodes to `datas`: when the topic exists and
`Topic.Publish` accepts each message in turn, the handler responds 200 with
the IDs returned, one per message and in the order of the request, and the
message counter of that topic grows by the number of messages, the other
counters staying as they were; when the topic does not exist it responds 404,
when a message is refused it responds 500, and in both cases every counter is
as it was. -/
theorem publish_handler_counts {σ : Type} (m : TopicModels σ) (st : ServerState σ)
    (datas : PublishDatas) (id : String) :
    (∀ t ids repos, m.GetTopic st.repos id = .ok t →
      publishInOrder m t st.repos datas.Messages = some (ids, repos) →
        (TopicServer.Publish m st (.ok datas) id).1 = JSON StatusOK { MessageIDs := ids } ∧
        ids.length = datas.Messages.length ∧
        (TopicServer.Publish m st (.ok datas) id).2.repos = repos ∧
        (TopicServer.Publish m st (.ok datas) id).2.stats.messageCount t.Name =
          st.stats.messageCount t.Name + datas.Messages.length ∧
        ∀ n, n ≠ t.Name →
          (TopicServer.Publish m st (.ok datas) id).2.stats.messageCount n =
            st.stats.messageCount n) ∧
    (∀ err, m.GetTopic st.repos id = .error err →
      (TopicServer.Publish m st (.ok datas) id).1.code = StatusNotFound ∧
      ∀ n, (TopicServer.Publish m st (.ok datas) id).2.stats.messageCount n =
        st.stats.messageCount n) ∧
    (∀ t, m.GetTopic st.repos id = .ok t →
      publishInOrder m t st.repos datas.Messages = none →
        (TopicServer.Publish m st (.ok datas) id).1.code = StatusInternalServerError ∧
        ∀ n, (TopicServer.Publish m st (.ok datas) id).2.stats.messageCount n =
          st.stats.messageCount n) := by
  refine ⟨?_, ?_, ?_⟩
  · intro t ids repos ht hp
    obtain ⟨hl, hlen⟩ := publishLoop_of_inOrder m t st.repos datas.Messages [] ids repos hp
    rw [List.nil_append] at hl
    have heq : TopicServer.Publish m st (.ok datas) id =
        (JSON StatusOK { MessageIDs := ids },
          { st with repos := repos
                    stats := st.stats.AddMessage t.Name datas.Messages.length }) := by
      simp only [TopicServer.Publish, ht, hl]
    rw [heq]
    refine ⟨rfl, hlen, rfl, ?_, ?_⟩
    · simp [TopicAdapter.AddMessage]
    · intro n hn
      simp [TopicAdapter.AddMessage, hn]
  · intro err ht
    have heq : TopicServer.Publish m st (.ok datas) id =
        (respondError StatusNotFound err "not found topic", st) := by
      simp only [TopicServer.Publish, ht]
    rw [heq]
    exact ⟨rfl, fun _ => rfl⟩
  · intro t ht hp
    obtain ⟨err, r, hl⟩ := publishLoop_of_refused m t st.repos datas.Messages [] hp
    have heq : TopicServer.Publish m st (.ok datas) id =
        (respondError StatusInternalServerError err "failed publish message",
          { st with repos := r }) := by
      simp only [TopicServer.Publish, ht, hl]
    rw [heq]
    exact ⟨rfl, fun _ => rfl⟩

/-- Witness of C12: on the sample server a request with two accepted
messages for `t1` is answered 200 with the IDs `m0`, `m1` and raises the
counter of `t1` from 0 to 2. -/
theorem publish_handler_counts_witness :
    (TopicServer.Publish sampleModels sampleServer
        (.ok { Messages := [{ Data := [1], Attr := [] }, { Data := [2], Attr := [] }] }) "t1").1 =
      JSON StatusOK { MessageIDs := ["m0", "m1"] } ∧
    (TopicServer.Publish sampleModels sampleServer
        (.ok { Messages := [{ Data := [1], Attr := [] }, { Data := [2], Attr := [] }] })
        "t1").2.stats.messageCount "t1" = 0 + (2 : Nat) :=
  ⟨((publish_handler_counts sampleModels sampleServer
      { Messages := [{ Data := [1], Attr := [] }, { Data := [2], Attr := [] }] } "t1").1
      { Name := "t1" } ["m0", "m1"] 2 rfl rfl).1,
   ((publish_handler_counts sampleModels sampleServer
      { Messages := [{ Data := [1], Attr := [] }, { Data := [2], Attr := [] }] } "t1").1
      { Name := "t1" } ["m0", "m1"] 2 rfl rfl).2.2.2.1⟩

end PubSub
